import Mathlib

/-!
k8s-sealer: a shallow embedding and its checked properties

The Go packages `sealer`, `sealer/bitnami` and `sealer/rest` are embedded as
Lean functions.

* A Go `string` or `[]byte` is a list of bytes (`Bytes`); a source literal
  `"abc"` is written `str "abc"`, its UTF-8 bytes.
* A Go `error` is represented by its message (the value of `err.Error()`).
* Code that touches the process environment, the file system, the cluster or
  the sealing library runs in the monad `M`: the state carries the bytes
  written so far to the `out io.Writer` of the call and a log of every call
  made to the outside. What those calls answer is given by a `World`.
* An HTTP response is a `Conn`: headers, status and the writes to the body. The
  router of `rest.SealHandler` (github.com/julienschmidt/httprouter) and the
  functions of net/http the handlers call are embedded next to the packages
  that use them.
-/

set_option linter.unusedVariables false

/-! ## Byte strings -/

/-- A Go string or byte slice. -/
abbrev Bytes := List Nat

/-- UTF-8 encoding of one code point. -/
def utf8 (c : Nat) : Bytes :=
  if c < 0x80 then [c]
  else if c < 0x800 then [0xC0 + c / 64, 0x80 + c % 64]
  else if c < 0x10000 then [0xE0 + c / 4096, 0x80 + c / 64 % 64, 0x80 + c % 64]
  else [0xF0 + c / 262144, 0x80 + c / 4096 % 64, 0x80 + c / 64 % 64, 0x80 + c % 64]

/-- The bytes of a Go string literal. -/
def str (s : String) : Bytes := s.toList.flatMap (fun c => utf8 c.toNat)

/-- A Go error value, represented by its message. -/
abbrev GoError := Bytes

deriving instance DecidableEq for Except

/-- Go: strings.HasSuffix, `len(s) >= len(suffix) && s[len(s)-len(suffix):] == suffix`. -/
def strings.HasSuffix (s suf : Bytes) : Bool :=
  decide (s.length ≥ suf.length) && (s.drop (s.length - suf.length) == suf)

/-- Go: strings.HasPrefix, `len(s) >= len(prefix) && s[:len(prefix)] == prefix`. -/
def strings.HasPrefix (s pre : Bytes) : Bool :=
  decide (s.length ≥ pre.length) && (s.take pre.length == pre)

/-- The ASCII branch of strings.ToLower: `if 'A' <= c && c <= 'Z' { c += 'a' - 'A' }`. -/
def strings.lowerASCII (c : Nat) : Nat :=
  if 65 ≤ c ∧ c ≤ 90 then c + 32 else c

/-- Go: strings.ToLower. A string whose bytes are all below utf8.RuneSelf
(0x80) is lowered byte by byte; any other string goes through
`Map(unicode.ToLower, s)`, which is the parameter `mapLower` (the Unicode
tables are not part of the embedding). -/
def strings.ToLower (mapLower : Bytes → Bytes) (s : Bytes) : Bytes :=
  if s.all (fun c => decide (c < 128)) then s.map strings.lowerASCII else mapLower s

/-! ## encoding/base64 -/

/-- The alphabet of base64.StdEncoding. -/
def base64.encodeStd : Bytes :=
  str "ABCDEFGHIJKLMNOPQRSTUVWXYZabcdefghijklmnopqrstuvwxyz0123456789+/"

/-- Table lookup `enc.encode[i]`. -/
def base64.encode (i : Nat) : Nat := base64.encodeStd.getD i 0

/-- Go: base64.StdEncoding.EncodeToString. Three input bytes give four
output bytes; a remainder of one or two bytes is padded with `=` (61). -/
def base64.StdEncoding.EncodeToString : Bytes → Bytes
  | a :: b :: c :: rest =>
    let val := a <<< 16 ||| b <<< 8 ||| c
    base64.encode (val >>> 18 &&& 0x3F) :: base64.encode (val >>> 12 &&& 0x3F) ::
      base64.encode (val >>> 6 &&& 0x3F) :: base64.encode (val &&& 0x3F) ::
      base64.StdEncoding.EncodeToString rest
  | [a, b] =>
    let val := a <<< 16 ||| b <<< 8
    [base64.encode (val >>> 18 &&& 0x3F), base64.encode (val >>> 12 &&& 0x3F),
      base64.encode (val >>> 6 &&& 0x3F), 61]
  | [a] =>
    let val := a <<< 16
    [base64.encode (val >>> 18 &&& 0x3F), base64.encode (val >>> 12 &&& 0x3F), 61, 61]
  | [] => []

/-! ## Kubernetes objects -/

/-- The fields of v1.Secret the program reads or writes. `Data` is the Go map
`map[string][]byte`, kept as the list of its entries. `CreationTimestamp` is
`none` for the zero `metav1.Time{}`; the two pointer fields are `none` for
`nil`. -/
structure Secret where
  Name : Bytes
  Namespace : Bytes
  SelfLink : Bytes
  UID : Bytes
  ResourceVersion : Bytes
  Generation : Int
  CreationTimestamp : Option Nat
  DeletionTimestamp : Option Nat
  DeletionGracePeriodSeconds : Option Int
  Type_ : Bytes
  Data : List (Bytes × Bytes)
  deriving DecidableEq

/-- Go: v1.SecretTypeOpaque. -/
def v1.SecretTypeOpaque : Bytes := str "Opaque"

/-- Go: v1.SecretTypeDockerConfigJson. -/
def v1.SecretTypeDockerConfigJson : Bytes := str "kubernetes.io/dockerconfigjson"

/-- Go: v1.SecretTypeTLS. -/
def v1.SecretTypeTLS : Bytes := str "kubernetes.io/tls"

/-- Go: v1.DockerConfigJsonKey. -/
def v1.DockerConfigJsonKey : Bytes := str ".dockerconfigjson"

/-- Go: v1.TLSCertKey. -/
def v1.TLSCertKey : Bytes := str "tls.crt"

/-- Go: v1.TLSPrivateKeyKey. -/
def v1.TLSPrivateKeyKey : Bytes := str "tls.key"

/-- Go: metav1.NamespaceSystem. -/
def metav1.NamespaceSystem : Bytes := str "kube-system"

/-- An RSA public key. -/
structure RSAPublicKey where
  N : Nat
  E : Nat
  deriving DecidableEq

/-- The `PublicKey interface{}` field of an x509 certificate: an RSA key, or a
key of another algorithm given by its `%v` rendering. -/
inductive PublicKey where
  | rsa (k : RSAPublicKey)
  | other (rendering : Bytes)
  deriving DecidableEq

/-- An x509 certificate, as far as parseKey looks at it. -/
structure Certificate where
  PublicKey : PublicKey
  deriving DecidableEq

/-- The artifact returned by the sealing library. -/
structure SealedSecret where
  Name : Bytes
  Namespace : Bytes
  EncryptedData : List (Bytes × Bytes)
  deriving DecidableEq

/-- An io.ReadCloser: what reading it to the end yields. -/
structure Reader where
  content : Except GoError Bytes
  deriving DecidableEq

/-- The fields of rest.Config the program sets. -/
structure RestConfig where
  kubeconfig : Bytes
  AcceptContentTypes : Bytes
  deriving DecidableEq

/-- A runtime.Encoder. -/
structure Encoder where
  Encode : SealedSecret → Except GoError Bytes

/-- Go: runtime.SerializerInfo. -/
structure SerializerInfo where
  MediaType : Bytes
  Serializer : Encoder
  PrettySerializer : Option Encoder

/-! ## The outside world and the effect monad -/

/-- One call made to the outside. -/
inductive Event where
  | Getenv (name : Bytes)
  | ReadFile (path : Bytes)
  | Open (path : Bytes)
  | ClientConfig (kubeconfig : Bytes)
  | NewForConfig (conf : RestConfig)
  | ProxyGet (ns name path : Bytes)
  | ReadAll
  | ParseCertsPEM (data : Bytes)
  | NewSealedSecret (pubKey : RSAPublicKey) (secret : Secret)
  | SerializerInfoForMediaType (mediaType : Bytes)
  | Encode (ssecret : SealedSecret)
  deriving DecidableEq

/-- What the outside answers. Every field is arbitrary: the theorems hold for
all worlds. -/
structure World where
  /-- Go: os.Getenv; the empty string for an unset variable. -/
  Getenv : Bytes → Bytes
  /-- Go: ioutil.ReadFile. -/
  ReadFile : Bytes → Except GoError Bytes
  /-- Go: os.Open. -/
  Open : Bytes → Except GoError Reader
  /-- Go: clientConfig(kubeconfig).ClientConfig(). -/
  ClientConfig : Bytes → Except GoError RestConfig
  /-- Go: corev1.NewForConfig; the client is identified with its config. -/
  NewForConfig : RestConfig → Except GoError RestConfig
  /-- Go: c.Services(ns).ProxyGet("http", name, "", path, nil).Stream(). -/
  ProxyGet : RestConfig → Bytes → Bytes → Bytes → Except GoError Reader
  /-- Go: cert.ParseCertsPEM. -/
  ParseCertsPEM : Bytes → Except GoError (List Certificate)
  /-- Go: ssv1alpha1.NewSealedSecret(codecs, pubKey, secret), the sealing delegate. -/
  NewSealedSecret : RSAPublicKey → Secret → Except GoError SealedSecret
  /-- Go: scheme.Codecs.SupportedMediaTypes(). -/
  SupportedMediaTypes : List SerializerInfo
  /-- Go: codecs.EncoderForVersion(encoder, ssv1alpha1.SchemeGroupVersion). -/
  EncoderForVersion : Encoder → Encoder
  /-- Go: strings.Map(unicode.ToLower, s). -/
  mapLower : Bytes → Bytes

/-- The state threaded through a call: the bytes written to `out` and the log
of calls to the outside. -/
structure St where
  out : Bytes
  log : List Event
  deriving DecidableEq

/-- A computation that may fail with a Go error and may write and log. -/
def M (α : Type) : Type := St → Except GoError α × St

/-- Return a value. -/
def M.pure {α : Type} (a : α) : M α := fun s => (Except.ok a, s)

/-- Sequencing: an error ends the computation, `if err != nil { return err }`. -/
def M.bind {α β : Type} (m : M α) (f : α → M β) : M β := fun s =>
  match m s with
  | (Except.ok a, s1) => f a s1
  | (Except.error e, s1) => (Except.error e, s1)

instance : Monad M where
  pure := M.pure
  bind := M.bind

/-- Return an error. -/
def M.fail {α : Type} (e : GoError) : M α := fun s => (Except.error e, s)

/-- Run a call and hand back its `(value, err)` result for inspection. -/
def M.try {α : Type} (m : M α) : M (Except GoError α) := fun s =>
  match m s with
  | (r, s1) => (Except.ok r, s1)

/-- Record a call to the outside. -/
def M.emit (ev : Event) : M Unit := fun s => (Except.ok (), { s with log := s.log ++ [ev] })

/-- Lift the answer of the outside. -/
def M.ofExcept {α : Type} (r : Except GoError α) : M α := fun s => (r, s)

/-- Go: out.Write(p) on the writer of the call; the error result is ignored by the callers. -/
def M.Write (p : Bytes) : M Unit := fun s => (Except.ok (), { s with out := s.out ++ p })

/-- Go: fmt.Errorf(prefix + "%s", arg) and fmt.Errorf(prefix + "%v", err). -/
def fmt.Errorf (pre arg : Bytes) : GoError := pre ++ arg

/-- Go: os.Getenv. -/
def os.Getenv (w : World) (name : Bytes) : M Bytes := do
  M.emit (Event.Getenv name)
  pure (w.Getenv name)

/-- Go: ioutil.ReadFile. -/
def ioutil.ReadFile (w : World) (path : Bytes) : M Bytes := do
  M.emit (Event.ReadFile path)
  M.ofExcept (w.ReadFile path)

/-- Go: os.Open. -/
def os.Open (w : World) (path : Bytes) : M Reader := do
  M.emit (Event.Open path)
  M.ofExcept (w.Open path)

/-- Go: ioutil.ReadAll. -/
def ioutil.ReadAll (r : Reader) : M Bytes := do
  M.emit Event.ReadAll
  M.ofExcept r.content

/-! ## Package sealer (sealer.go, errors.go) -/

/-- Go: sealer.ErrUnauthorized. -/
def sealer.ErrUnauthorized : GoError := str "unauthorized"

/-- Go: sealer.ErrInternal. -/
def sealer.ErrInternal : GoError := str "internal error"

/-- Go: sealer.CreateSecret. Only Name, Namespace, Type and Data are set; every
other field keeps its zero value. -/
def sealer.CreateSecret (name ns typ : Bytes) (data : List (Bytes × Bytes)) : Secret :=
  { Name := name
    Namespace := ns
    SelfLink := []
    UID := []
    ResourceVersion := []
    Generation := 0
    CreationTimestamp := none
    DeletionTimestamp := none
    DeletionGracePeriodSeconds := none
    Type_ := typ
    Data := data }

/-- Go: sealer.CreateDockerconfigjson. The format string of the source is
`{"auths":{"%s":{"auth": "%s"}}}`, with one space after `"auth":`. -/
def sealer.CreateDockerconfigjson (host username password : Bytes) : Bytes :=
  let auth := base64.StdEncoding.EncodeToString (username ++ str ":" ++ password)
  str "\x7b\"auths\":\x7b\"" ++ host ++ str "\":\x7b\"auth\": \"" ++ auth ++ str "\"\x7d\x7d\x7d"

/-- Go: sealer.CertFilePath. -/
def sealer.CertFilePath (w : World) (cluster : Bytes) : M Bytes :=
  if cluster = str "production" then os.Getenv w (str "PROD_CERT_FILE")
  else if cluster = str "lab" then os.Getenv w (str "LAB_CERT_FILE")
  else if cluster = str "dev" then os.Getenv w (str "DEV_CERT_FILE")
  else if cluster = str "stage" then os.Getenv w (str "STAGE_CERT_FILE")
  else M.fail (fmt.Errorf (str "Invalid cluster: ") cluster)

/-- Go: sealer.KubeconfigFile. -/
def sealer.KubeconfigFile (w : World) (cluster : Bytes) : M Bytes :=
  if cluster = str "production" then os.Getenv w (str "PROD_KUBECONFIG_FILE")
  else if cluster = str "lab" then os.Getenv w (str "LAB_KUBECONFIG_FILE")
  else if cluster = str "dev" then os.Getenv w (str "DEV_KUBECONFIG_FILE")
  else if cluster = str "stage" then os.Getenv w (str "STAGE_KUBECONFIG_FILE")
  else M.fail (fmt.Errorf (str "Invalid cluster: ") cluster)

/-- The message of the error GetTLS returns for a domain with no supported suffix. -/
def sealer.unsupportedDomain (domain : Bytes) : GoError :=
  str "Unsupported domain: " ++ domain ++
    str ". Domain must be *.teko.vn or *.services.teko.vn or *.vnshop.vn"

/-- Go: the if/else chain of sealer.GetTLS (lines 78-90), giving `(certFile, keyFile)`. -/
def sealer.GetTLS.files (w : World) (domain : Bytes) : M (Bytes × Bytes) :=
  if strings.HasSuffix domain (str ".services.teko.vn") then do
    let certFile ← os.Getenv w (str "SERVICES_TLS_CERT_FILE")
    let keyFile ← os.Getenv w (str "SERVICES_TLS_KEY_FILE")
    pure (certFile, keyFile)
  else if strings.HasSuffix domain (str ".teko.vn") then do
    let certFile ← os.Getenv w (str "TEKO_TLS_CERT_FILE")
    let keyFile ← os.Getenv w (str "TEKO_TLS_KEY_FILE")
    pure (certFile, keyFile)
  else if strings.HasSuffix domain (str ".vnshop.vn") then do
    let certFile ← os.Getenv w (str "VNSHOP_TLS_CERT_FILE")
    let keyFile ← os.Getenv w (str "VNSHOP_TLS_KEY_FILE")
    pure (certFile, keyFile)
  else M.fail (sealer.unsupportedDomain domain)

/-- Go: sealer.GetTLS. -/
def sealer.GetTLS (w : World) (domain : Bytes) : M (Bytes × Bytes) := do
  let files ← sealer.GetTLS.files w domain
  match ← M.try (ioutil.ReadFile w files.1) with
  | Except.error _ => M.fail (str "Cannot read tls cert file")
  | Except.ok certData =>
    match ← M.try (ioutil.ReadFile w files.2) with
    | Except.error _ => M.fail (str "Cannot read tls key file")
    | Except.ok keyData => pure (certData, keyData)

/-! ## Package bitnami (bitnami/seal_service.go) -/

/-- Go: bitnami.SealService. -/
structure bitnami.SealService where
  outputFormat : Bytes
  controllerNs : Bytes
  controllerName : Bytes
  registryHost : Bytes
  deriving DecidableEq

/-- Go: bitnami.NewSealService. -/
def bitnami.NewSealService (outputFormat controllerNs controllerName registryHost : Bytes) :
    bitnami.SealService :=
  { outputFormat := if outputFormat = [] then str "json" else outputFormat
    controllerNs := if controllerNs = [] then metav1.NamespaceSystem else controllerNs
    controllerName :=
      if controllerName = [] then str "sealed-secrets-controller" else controllerName
    registryHost := registryHost }

/-- Go: runtime.SerializerInfoForMediaType: the first entry with the media type
asked for, else the first entry with an empty media type. -/
def runtime.SerializerInfoForMediaType (types : List SerializerInfo) (mediaType : Bytes) :
    Option SerializerInfo :=
  match types.find? (fun info => info.MediaType == mediaType) with
  | some info => some info
  | none => types.find? (fun info => info.MediaType == [])

/-- Go: SealService.prettyEncoder. -/
def bitnami.SealService.prettyEncoder (w : World) (s : bitnami.SealService)
    (mediaType : Bytes) : M Encoder := do
  M.emit (Event.SerializerInfoForMediaType mediaType)
  match runtime.SerializerInfoForMediaType w.SupportedMediaTypes mediaType with
  | none => M.fail (fmt.Errorf (str "binary can" ++ [39] ++ str "t serialize ") mediaType)
  | some info =>
    let prettyEncoder :=
      match info.PrettySerializer with
      | some e => e
      | none => info.Serializer
    pure (w.EncoderForVersion prettyEncoder)

/-- Go: runtime.Encode. -/
def runtime.Encode (e : Encoder) (ssecret : SealedSecret) : M Bytes := do
  M.emit (Event.Encode ssecret)
  M.ofExcept (e.Encode ssecret)

/-- Go: the switch of SealService.sealedSecretOutput (lines 151-159), on
`strings.ToLower(s.outputFormat)`, giving `contentType`. -/
def bitnami.SealService.sealedSecretOutput.contentType (w : World)
    (s : bitnami.SealService) : M Bytes :=
  if strings.ToLower w.mapLower s.outputFormat = str "json" ∨
      strings.ToLower w.mapLower s.outputFormat = str "" then
    pure (str "application/json")
  else if strings.ToLower w.mapLower s.outputFormat = str "yaml" then
    pure (str "application/yaml")
  else M.fail (fmt.Errorf (str "unsupported output format: ") s.outputFormat)

/-- Go: SealService.sealedSecretOutput. -/
def bitnami.SealService.sealedSecretOutput (w : World) (s : bitnami.SealService)
    (ssecret : SealedSecret) : M Unit := do
  let contentType ← bitnami.SealService.sealedSecretOutput.contentType w s
  let prettyEnc ← s.prettyEncoder w contentType
  match ← M.try (runtime.Encode prettyEnc ssecret) with
  | Except.error err => M.fail (fmt.Errorf (str "Cannot encode sealed secret: ") err)
  | Except.ok buf =>
    M.Write buf
    M.Write (str "\n")

/-- Go: SealService.openCertHTTP. -/
def bitnami.SealService.openCertHTTP (w : World) (s : bitnami.SealService)
    (c : RestConfig) (ns name : Bytes) : M Reader := do
  M.emit (Event.ProxyGet ns name (str "/v1/cert.pem"))
  match w.ProxyGet c ns name (str "/v1/cert.pem") with
  | Except.error err => M.fail (fmt.Errorf (str "Error fetching certificate: ") err)
  | Except.ok f => pure f

/-- Go: SealService.openCert. -/
def bitnami.SealService.openCert (w : World) (s : bitnami.SealService)
    (certFilePath kubeconfig : Bytes) : M Reader :=
  if certFilePath ≠ [] then os.Open w certFilePath
  else do
    M.emit (Event.ClientConfig kubeconfig)
    match w.ClientConfig kubeconfig with
    | Except.error err => M.fail (fmt.Errorf (str "Cannot create *rest.Config: ") err)
    | Except.ok conf =>
      let conf := { conf with AcceptContentTypes := str "application/x-pem-file, */*" }
      M.emit (Event.NewForConfig conf)
      match w.NewForConfig conf with
      | Except.error err => M.fail (fmt.Errorf (str "Cannot create rest client: ") err)
      | Except.ok restClient => s.openCertHTTP w restClient s.controllerNs s.controllerName

/-- Go: bitnami.parseKey. -/
def bitnami.parseKey (w : World) (r : Reader) : M RSAPublicKey := do
  let data ← ioutil.ReadAll r
  M.emit (Event.ParseCertsPEM data)
  let certs ← M.ofExcept (w.ParseCertsPEM data)
  match certs with
  | [] => M.fail (str "Failed to read any certificates")
  | c :: _ =>
    match c.PublicKey with
    | PublicKey.rsa k => pure k
    | PublicKey.other rendering =>
      M.fail (fmt.Errorf (str "Expected RSA public key but found ") rendering)

/-- Go: the first lines of SealService.seal, which clear the read-only
server-side ObjectMeta fields. -/
def bitnami.SealService.seal.strip (secret : Secret) : Secret :=
  { secret with
    SelfLink := []
    UID := []
    ResourceVersion := []
    Generation := 0
    CreationTimestamp := none
    DeletionTimestamp := none
    DeletionGracePeriodSeconds := none }

/-- Go: SealService.seal. The `defer f.Close()` of the source touches neither
`out` nor any value the function returns, and is left out. -/
def bitnami.SealService.seal (w : World) (s : bitnami.SealService) (secret : Secret)
    (certFilePath kubeconfig : Bytes) : M Unit := do
  let secret := bitnami.SealService.seal.strip secret
  match ← M.try (s.openCert w certFilePath kubeconfig) with
  | Except.error err => M.fail (fmt.Errorf (str "Cannot open cert: ") err)
  | Except.ok f =>
    match ← M.try (bitnami.parseKey w f) with
    | Except.error err => M.fail (fmt.Errorf (str "Cannot parse pub key: ") err)
    | Except.ok pubKey =>
      M.emit (Event.NewSealedSecret pubKey secret)
      match w.NewSealedSecret pubKey secret with
      | Except.error err => M.fail (fmt.Errorf (str "Cannot create sealed secret: ") err)
      | Except.ok ssecret =>
        match ← M.try (s.sealedSecretOutput w ssecret) with
        | Except.error err =>
          M.fail (fmt.Errorf (str "Cannot write sealed secret to output: ") err)
        | Except.ok _ => pure ()

/-- Go: SealService.SealOpaque. -/
def bitnami.SealService.SealOpaque (w : World) (s : bitnami.SealService)
    (cluster name ns : Bytes) (data : List (Bytes × Bytes)) : M Unit := do
  let certFilePath ← sealer.CertFilePath w cluster
  let kubeconfig ← sealer.KubeconfigFile w cluster
  let secret := sealer.CreateSecret name ns v1.SecretTypeOpaque data
  s.seal w secret certFilePath kubeconfig

/-- Go: SealService.SealDockerconfigjson. -/
def bitnami.SealService.SealDockerconfigjson (w : World) (s : bitnami.SealService)
    (cluster name ns username password : Bytes) : M Unit := do
  let certFilePath ← sealer.CertFilePath w cluster
  let kubeconfig ← sealer.KubeconfigFile w cluster
  let data :=
    [(v1.DockerConfigJsonKey, sealer.CreateDockerconfigjson s.registryHost username password)]
  let secret := sealer.CreateSecret name ns v1.SecretTypeDockerConfigJson data
  s.seal w secret certFilePath kubeconfig

/-- Go: SealService.SealTLS. -/
def bitnami.SealService.SealTLS (w : World) (s : bitnami.SealService)
    (cluster ns domain : Bytes) : M Unit := do
  let certFilePath ← sealer.CertFilePath w cluster
  let kubeconfig ← sealer.KubeconfigFile w cluster
  let (cert, key) ← sealer.GetTLS w domain
  let data := [(v1.TLSCertKey, cert), (v1.TLSPrivateKeyKey, key)]
  let name := domain ++ str "-tls"
  let secret := sealer.CreateSecret name ns v1.SecretTypeTLS data
  s.seal w secret certFilePath kubeconfig

/-! ## Package rest (rest/handler.go, rest/seal_service.go)

The response is recorded the way net/http treats it: the first status
written wins, a body write before any status implies 200. A document written
by `json.NewEncoder(w).Encode(v)` is kept as the JSON object it denotes, so
that its fields can be read back without a JSON parser. -/

/-- A JSON value as encoding/json writes the two field types in use: a Go
string, or a `[]byte` (written as a base64 string). -/
inductive JSONValue where
  | string (s : Bytes)
  | bytes (b : Bytes)
  deriving DecidableEq

/-- A JSON object: its fields in order. -/
abbrev JSONObject := List (Bytes × JSONValue)

/-- One write to the response body. -/
inductive Chunk where
  | raw (p : Bytes)
  | json (v : JSONObject)
  deriving DecidableEq

/-- A call made on the sealer.SealService interface. -/
inductive Call where
  | SealOpaque (cluster name ns : Bytes) (data : List (Bytes × Bytes))
  | SealDockerconfigjson (cluster name ns username password : Bytes)
  | SealTLS (cluster ns domain : Bytes)
  deriving DecidableEq

/-- The http.ResponseWriter of a request, together with what the handler
printed to standard output (error and code of each `fmt.Printf` in rest.Error) and
the calls it made on the seal service. -/
structure Conn where
  header : List (Bytes × Bytes)
  status : Option Nat
  body : List Chunk
  printed : List (GoError × Nat)
  calls : List Call
  deriving DecidableEq

/-- A response writer on which nothing has been written yet. -/
def Conn.fresh : Conn :=
  { header := [], status := none, body := [], printed := [], calls := [] }

/-- Go: w.Header().Set(key, value). -/
def Conn.SetHeader (c : Conn) (key value : Bytes) : Conn :=
  { c with header := c.header.filter (fun kv => kv.1 != key) ++ [(key, value)] }

/-- Go: w.WriteHeader(code); a second call does not change the status. -/
def Conn.WriteHeader (c : Conn) (code : Nat) : Conn :=
  match c.status with
  | none => { c with status := some code }
  | some _ => c

/-- Go: w.Write; the first write without a status sends 200. -/
def Conn.Write (c : Conn) (chunk : Chunk) : Conn :=
  let c := c.WriteHeader 200
  { c with body := c.body ++ [chunk] }

/-- Go: http.StatusForbidden. -/
def http.StatusForbidden : Nat := 403

/-- Go: http.StatusNotFound. -/
def http.StatusNotFound : Nat := 404

/-- Go: http.StatusInternalServerError. -/
def http.StatusInternalServerError : Nat := 500

/-- Go: rest.errorResponse, `Err string` tagged `json:"err,omitempty"`. -/
structure rest.errorResponse where
  Err : Bytes
  deriving DecidableEq

/-- Go: rest.sealResponse, `SealedSecret []byte` tagged
`json:"sealedSecret,omitempty"` and `Err string` tagged `json:"err,omitempty"`. -/
structure rest.sealResponse where
  SealedSecret : Bytes
  Err : Bytes
  deriving DecidableEq

/-- Go: json.Marshal of an errorResponse; an empty field is omitted. -/
def rest.errorResponse.marshal (r : rest.errorResponse) : JSONObject :=
  if r.Err = [] then [] else [(str "err", JSONValue.string r.Err)]

/-- Go: json.Marshal of a sealResponse; empty fields are omitted. -/
def rest.sealResponse.marshal (r : rest.sealResponse) : JSONObject :=
  (if r.SealedSecret = [] then [] else [(str "sealedSecret", JSONValue.bytes r.SealedSecret)]) ++
  (if r.Err = [] then [] else [(str "err", JSONValue.string r.Err)])

/-- Go: sealResponse.Write, `r.SealedSecret = append(r.SealedSecret, p...)`. -/
def rest.sealResponse.Write (r : rest.sealResponse) (p : Bytes) : rest.sealResponse :=
  { r with SealedSecret := r.SealedSecret ++ p }

/-- Go: json.NewEncoder(w).Encode(v) for a value that marshals to `v`. Neither
struct type can fail to marshal and the recorder accepts every write, so the
error result is always nil. -/
def json.Encode (c : Conn) (v : JSONObject) : Conn × Option GoError :=
  (c.Write (Chunk.json v), none)

/-- Go: rest.Error. -/
def rest.Error (c : Conn) (err : GoError) (code : Nat) : Conn :=
  let c := { c with printed := c.printed ++ [(err, code)] }
  let err := if code = http.StatusInternalServerError then sealer.ErrInternal else err
  let c := c.WriteHeader code
  (json.Encode c (rest.errorResponse.marshal { Err := err })).1

/-- Go: rest.NotFound. No function of the repository calls it. -/
def rest.NotFound (c : Conn) : Conn :=
  let c := c.WriteHeader http.StatusNotFound
  c.Write (Chunk.raw (str "\x7b\x7d" ++ str "\n"))

/-- Go: rest.encodeJSON. -/
def rest.encodeJSON (c : Conn) (v : JSONObject) : Conn :=
  match json.Encode c v with
  | (c1, some err) => rest.Error c1 err http.StatusInternalServerError
  | (c1, none) => c1

/-- Go: http.Error(w, error, code) of net/http. -/
def http.Error (c : Conn) (error : Bytes) (code : Nat) : Conn :=
  let c := c.SetHeader (str "Content-Type") (str "text/plain; charset=utf-8")
  let c := c.SetHeader (str "X-Content-Type-Options") (str "nosniff")
  let c := c.WriteHeader code
  c.Write (Chunk.raw (error ++ str "\n"))

/-- Go: http.NotFound(w, r) of net/http, `Error(w, "404 page not found", StatusNotFound)`. -/
def http.NotFound (c : Conn) : Conn :=
  http.Error c (str "404 page not found") http.StatusNotFound

/-- Go: rest.sealOpaqueRequest. -/
structure rest.sealOpaqueRequest where
  Cluster : Bytes
  Name : Bytes
  Namespace : Bytes
  Data : List (Bytes × Bytes)
  deriving DecidableEq

/-- Go: rest.sealDockerconfigjsonRequest. -/
structure rest.sealDockerconfigjsonRequest where
  Cluster : Bytes
  Name : Bytes
  Namespace : Bytes
  Username : Bytes
  Password : Bytes
  deriving DecidableEq

/-- Go: rest.sealTLSRequest. -/
structure rest.sealTLSRequest where
  Cluster : Bytes
  Namespace : Bytes
  Domain : Bytes
  deriving DecidableEq

/-- Go: the interface sealer.SealService. A method answers with the successive
`out.Write(p)` calls it made and the error it returned (`none` for nil). -/
structure sealer.SealService where
  SealOpaque : Bytes → Bytes → Bytes → List (Bytes × Bytes) → List Bytes × Option GoError
  SealDockerconfigjson : Bytes → Bytes → Bytes → Bytes → Bytes → List Bytes × Option GoError
  SealTLS : Bytes → Bytes → Bytes → List Bytes × Option GoError

/-- Go: json.NewDecoder(r.Body).Decode(&req), one decoder per request type. -/
structure json.Decoder where
  sealOpaqueRequest : Bytes → Except GoError rest.sealOpaqueRequest
  sealDockerconfigjsonRequest : Bytes → Except GoError rest.sealDockerconfigjsonRequest
  sealTLSRequest : Bytes → Except GoError rest.sealTLSRequest

/-- Go: rest.SealHandler; its embedded router is the one `rest.NewSealHandler` builds. -/
structure rest.SealHandler where
  SealService : sealer.SealService

/-- An incoming request. -/
structure Request where
  Method : Bytes
  Path : Bytes
  Body : Bytes
  deriving DecidableEq

/-- The value of `res` after the service wrote to it: `var res sealResponse`
followed by the writes. -/
def rest.sealResponse.collect (writes : List Bytes) : rest.sealResponse :=
  writes.foldl rest.sealResponse.Write { SealedSecret := [], Err := [] }

/-- Go: SealHandler.handleSealOpaque. -/
def rest.SealHandler.handleSealOpaque (d : json.Decoder) (h : rest.SealHandler)
    (c : Conn) (r : Request) : Conn :=
  match d.sealOpaqueRequest r.Body with
  | Except.error err => rest.Error c err http.StatusForbidden
  | Except.ok req =>
    let c := { c with calls := c.calls ++
      [Call.SealOpaque req.Cluster req.Name req.Namespace req.Data] }
    match h.SealService.SealOpaque req.Cluster req.Name req.Namespace req.Data with
    | (_, some err) => rest.Error c err http.StatusInternalServerError
    | (writes, none) => rest.encodeJSON c (rest.sealResponse.collect writes).marshal

/-- Go: SealHandler.handleSealDockerconfigjson. -/
def rest.SealHandler.handleSealDockerconfigjson (d : json.Decoder) (h : rest.SealHandler)
    (c : Conn) (r : Request) : Conn :=
  match d.sealDockerconfigjsonRequest r.Body with
  | Except.error err => rest.Error c err http.StatusForbidden
  | Except.ok req =>
    let c := { c with calls := c.calls ++
      [Call.SealDockerconfigjson req.Cluster req.Name req.Namespace req.Username req.Password] }
    match h.SealService.SealDockerconfigjson req.Cluster req.Name req.Namespace
        req.Username req.Password with
    | (_, some err) => rest.Error c err http.StatusInternalServerError
    | (writes, none) => rest.encodeJSON c (rest.sealResponse.collect writes).marshal

/-- Go: SealHandler.handleSealTLS. -/
def rest.SealHandler.handleSealTLS (d : json.Decoder) (h : rest.SealHandler)
    (c : Conn) (r : Request) : Conn :=
  match d.sealTLSRequest r.Body with
  | Except.error err => rest.Error c err http.StatusForbidden
  | Except.ok req =>
    let c := { c with calls := c.calls ++ [Call.SealTLS req.Cluster req.Namespace req.Domain] }
    match h.SealService.SealTLS req.Cluster req.Namespace req.Domain with
    | (_, some err) => rest.Error c err http.StatusInternalServerError
    | (writes, none) => rest.encodeJSON c (rest.sealResponse.collect writes).marshal

/-! ## net/http's redirect and github.com/julienschmidt/httprouter

Both are library code. The router is embedded for route tables of static
paths (no parameter, no catch-all), which is what NewSealHandler registers: a
tree of such routes is kept as the list of its (path, handle) pairs. Two
details of the router differ between its revisions and are left open by a
`Revision`; every theorem holds for all of them. -/

/-- Go: http.StatusText, for the codes the router and the redirect use. -/
def http.StatusText (code : Nat) : Bytes :=
  if code = 301 then str "Moved Permanently"
  else if code = 307 then str "Temporary Redirect"
  else if code = 308 then str "Permanent Redirect"
  else if code = 404 then str "Not Found"
  else if code = 405 then str "Method Not Allowed"
  else []

/-- Go: the htmlEscape replacer of net/http. -/
def http.htmlEscape (s : Bytes) : Bytes :=
  s.flatMap fun c =>
    if c = 38 then str "&amp;"
    else if c = 60 then str "&lt;"
    else if c = 62 then str "&gt;"
    else if c = 34 then str "&#34;"
    else if c = 39 then str "&#39;"
    else [c]

/-- Go: http.Redirect(w, r, url, code), for a `url` that is an absolute path in
clean form or empty, which is all the router passes: such a path is its own
Location, the empty one resolves to "/". The Location is set, the status
written, and only a GET without a Content-Type gets the short HTML body. -/
def http.Redirect (c : Conn) (r : Request) (url : Bytes) (code : Nat) : Conn :=
  let url := if url = [] then str "/" else url
  let hadCT := (List.lookup (str "Content-Type") c.header).isSome
  let c := c.SetHeader (str "Location") url
  let c :=
    if ¬ hadCT ∧ (r.Method = str "GET" ∨ r.Method = str "HEAD") then
      c.SetHeader (str "Content-Type") (str "text/html; charset=utf-8")
    else c
  let c := c.WriteHeader code
  if ¬ hadCT ∧ r.Method = str "GET" then
    c.Write (Chunk.raw (str "<a href=\"" ++ http.htmlEscape url ++ str "\">" ++
      http.StatusText code ++ str "</a>.\n" ++ str "\n"))
  else c

/-- Go: httprouter.Handle; the Params argument is left out, no route of the
program has a parameter. -/
abbrev httprouter.Handle := Conn → Request → Conn

/-- What differs between revisions of httprouter: whether a request other than
GET is redirected with 308 (later revisions) or with 307 (the releases up to
v1.3.0), and whether the Allow list is sorted with OPTIONS in it or has
OPTIONS appended. -/
structure httprouter.Revision where
  permanentRedirect : Bool
  sortedAllow : Bool
  deriving DecidableEq

/-- The status a request other than GET is redirected with. -/
def httprouter.Revision.redirectCode (rev : httprouter.Revision) : Nat :=
  if rev.permanentRedirect then 308 else 307

/-- Go: httprouter.Router. `trees` is the map from a method to the tree of its
routes. -/
structure httprouter.Router where
  trees : List (Bytes × List (Bytes × httprouter.Handle))
  RedirectTrailingSlash : Bool
  RedirectFixedPath : Bool
  HandleMethodNotAllowed : Bool
  HandleOPTIONS : Bool

/-- Go: httprouter.New. -/
def httprouter.New : httprouter.Router :=
  { trees := []
    RedirectTrailingSlash := true
    RedirectFixedPath := true
    HandleMethodNotAllowed := true
    HandleOPTIONS := true }

/-- Go: Router.Handle(method, path, handle): the route is added to the tree of
the method, which is created if the method has none. -/
def httprouter.Router.Handle (r : httprouter.Router) (method path : Bytes)
    (handle : httprouter.Handle) : httprouter.Router :=
  match List.lookup method r.trees with
  | none => { r with trees := r.trees ++ [(method, [(path, handle)])] }
  | some _ =>
    { r with trees := r.trees.map fun tree =>
        if tree.1 = method then (tree.1, tree.2 ++ [(path, handle)]) else tree }

/-- Go: Router.POST. -/
def httprouter.Router.POST (r : httprouter.Router) (path : Bytes)
    (handle : httprouter.Handle) : httprouter.Router :=
  r.Handle (str "POST") path handle

/-- Go: node.getValue on a tree of static routes: the handle registered for
exactly `path`; when there is none, the flag `tsr` tells whether a handle
exists for the path with an extra or without the trailing slash. (For the
path "/" the flag is not looked at by ServeHTTP.) -/
def httprouter.getValue (root : List (Bytes × httprouter.Handle)) (path : Bytes) :
    Option httprouter.Handle × Bool :=
  match List.lookup path root with
  | some handle => (some handle, false)
  | none =>
    (none, root.any fun route => route.1 == path ++ str "/" || route.1 ++ str "/" == path)

/-- Go: the `.. element` case of httprouter.CleanPath on the buffer written so
far: `if w > 1 { w--; for w > 1 && buf[w] != '/' { w-- } }`. The argument
is the buffer reversed. -/
def httprouter.CleanPath.backtrack : Bytes → Bytes
  | [] => []
  | [c] => [c]
  | c :: d :: rest =>
    if c = 47 then d :: rest
    else httprouter.CleanPath.backtrack (d :: rest)

/-- Go: the loop of httprouter.CleanPath. `p` is the input from index `r` on,
`skip` the number of bytes a step `r += 2` or `r += 3` still has to pass,
`buf` the output written so far, reversed (it starts as "/"), and `inElement`
tells that a real path element is being copied. The result is the reversed
output and the `trailing` flag. -/
def httprouter.CleanPath.loop : Bytes → Nat → Bool → Bytes → Bool → Bytes × Bool
  | [], _, _, buf, trailing => (buf, trailing)
  | _ :: rest, skip + 1, inElement, buf, trailing =>
    httprouter.CleanPath.loop rest skip inElement buf trailing
  | c :: rest, 0, true, buf, trailing =>
    -- copy element: `for r < n && p[r] != '/'`
    if c = 47 then httprouter.CleanPath.loop rest 0 false buf trailing
    else httprouter.CleanPath.loop rest 0 true (c :: buf) trailing
  | c :: rest, 0, false, buf, trailing =>
    if c = 47 then
      -- empty path element
      httprouter.CleanPath.loop rest 0 false buf trailing
    else if c = 46 ∧ rest = [] then
      -- `.` at the end
      httprouter.CleanPath.loop rest 0 false buf true
    else if c = 46 ∧ rest.head? = some 47 then
      -- `.` element
      httprouter.CleanPath.loop rest 1 false buf trailing
    else if c = 46 ∧ rest.head? = some 46 ∧ (rest.tail = [] ∨ rest.tail.head? = some 47) then
      -- `..` element: remove to last `/`
      httprouter.CleanPath.loop rest 2 false (httprouter.CleanPath.backtrack buf) trailing
    else
      -- real path element: add a slash if needed, then copy
      httprouter.CleanPath.loop rest 0 true
        (c :: (if buf.length > 1 then 47 :: buf else buf)) trailing

/-- Go: httprouter.CleanPath: the path with empty, `.` and `..` elements
removed, rooted at "/", keeping a trailing slash. -/
def httprouter.CleanPath (p : Bytes) : Bytes :=
  if p = [] then str "/"
  else
    let trailing := decide (p.length > 1) && (p.getLast? == some 47)
    let res :=
      if p.head? = some 47 then httprouter.CleanPath.loop p.tail 0 false [47] trailing
      else httprouter.CleanPath.loop p 0 false [47] trailing
    if res.2 ∧ res.1.length > 1 then (47 :: res.1).reverse else res.1.reverse

/-- Go: node.findCaseInsensitivePath on a tree of static routes whose common
prefix is longer than "/": the registered path equal to `path` when letter
case is ignored; failing that, if `fixTrailingSlash`, the empty path for "/"
(the walk fails at the root, which answers found for that path), or the
registered path that differs only by a trailing slash. -/
def httprouter.findCaseInsensitivePath (mapLower : Bytes → Bytes)
    (root : List (Bytes × httprouter.Handle)) (path : Bytes) (fixTrailingSlash : Bool) :
    Option Bytes :=
  match root.find? fun route =>
      strings.ToLower mapLower route.1 == strings.ToLower mapLower path with
  | some route => some route.1
  | none =>
    if fixTrailingSlash then
      if path = str "/" then some []
      else
        match root.find? fun route =>
            strings.ToLower mapLower route.1 ++ str "/" == strings.ToLower mapLower path ||
            strings.ToLower mapLower route.1 == strings.ToLower mapLower path ++ str "/" with
        | some route => some route.1
        | none => none
    else none

/-- Go: strings.Join. -/
def strings.Join (elems : List Bytes) (sep : Bytes) : Bytes :=
  match elems with
  | [] => []
  | first :: rest => rest.foldl (fun acc e => acc ++ sep ++ e) first

/-- Go: Router.allowed(path, reqMethod): the methods other than `reqMethod`
and OPTIONS that have a handle for `path` (for "*", every method but
OPTIONS); OPTIONS is added to a list that is not empty. -/
def httprouter.Router.allowed (rev : httprouter.Revision) (r : httprouter.Router)
    (path reqMethod : Bytes) : Bytes :=
  let allowed :=
    if path = str "*" then
      (r.trees.filter fun tree => tree.1 != str "OPTIONS").map fun tree => tree.1
    else
      (r.trees.filter fun tree =>
        tree.1 != reqMethod && tree.1 != str "OPTIONS" &&
          (httprouter.getValue tree.2 path).1.isSome).map fun tree => tree.1
  if allowed = [] then []
  else if rev.sortedAllow then
    strings.Join ((allowed ++ [str "OPTIONS"]).insertionSort fun a b => a ≤ b) (str ", ")
  else strings.Join allowed (str ", ") ++ str ", OPTIONS"

/-- Go: the first part of Router.ServeHTTP, which looks the path up in the tree
of the request method: the response if a handle or a redirection is found,
`none` if the function goes on to the OPTIONS, 405 and 404 handling. -/
def httprouter.Router.lookup (rev : httprouter.Revision) (mapLower : Bytes → Bytes)
    (r : httprouter.Router) (c : Conn) (req : Request) : Option Conn :=
  let path := req.Path
  match List.lookup req.Method r.trees with
  | none => none
  | some root =>
    match httprouter.getValue root path with
    | (some handle, _) => some (handle c req)
    | (none, tsr) =>
      if req.Method ≠ str "CONNECT" ∧ path ≠ str "/" then
        let code := if req.Method ≠ str "GET" then rev.redirectCode else 301
        if tsr ∧ r.RedirectTrailingSlash then
          if path.length > 1 ∧ path.getLast? = some 47 then
            some (http.Redirect c req path.dropLast code)
          else some (http.Redirect c req (path ++ str "/") code)
        else if r.RedirectFixedPath then
          match httprouter.findCaseInsensitivePath mapLower root (httprouter.CleanPath path)
              r.RedirectTrailingSlash with
          | some fixedPath => some (http.Redirect c req fixedPath code)
          | none => none
        else none
      else none

/-- Go: Router.ServeHTTP, with PanicHandler, GlobalOPTIONS, MethodNotAllowed
and NotFound nil as httprouter.New leaves them. -/
def httprouter.Router.ServeHTTP (rev : httprouter.Revision) (mapLower : Bytes → Bytes)
    (r : httprouter.Router) (c : Conn) (req : Request) : Conn :=
  match r.lookup rev mapLower c req with
  | some res => res
  | none =>
    if req.Method = str "OPTIONS" ∧ r.HandleOPTIONS then
      if r.allowed rev req.Path (str "OPTIONS") ≠ [] then
        c.SetHeader (str "Allow") (r.allowed rev req.Path (str "OPTIONS"))
      else http.NotFound c
    else if r.HandleMethodNotAllowed ∧ r.allowed rev req.Path req.Method ≠ [] then
      http.Error (c.SetHeader (str "Allow") (r.allowed rev req.Path req.Method))
        (http.StatusText 405) 405
    else http.NotFound c

/-- Go: rest.NewSealHandler: the router of the handler `h`, with the three
routes registered in the order of the source. -/
def rest.NewSealHandler (d : json.Decoder) (h : rest.SealHandler) : httprouter.Router :=
  ((httprouter.New.POST (str "/api/seal/opaque") (h.handleSealOpaque d)).POST
      (str "/api/seal/dockerconfigjson") (h.handleSealDockerconfigjson d)).POST
    (str "/api/seal/tls") (h.handleSealTLS d)

/-- Go: the routes registered by rest.NewSealHandler, as (method, path). -/
def rest.NewSealHandler.routes : List (Bytes × Bytes) :=
  [(str "POST", str "/api/seal/opaque"),
   (str "POST", str "/api/seal/dockerconfigjson"),
   (str "POST", str "/api/seal/tls")]

/-- Go: rest.Handler.ServeHTTP. The argument `sealHandler` is
`h.SealHandler.ServeHTTP`, the ServeHTTP of the embedded httprouter.Router. -/
def rest.Handler.ServeHTTP (sealHandler : Conn → Request → Conn) (c : Conn) (r : Request) :
    Conn :=
  if strings.HasPrefix r.Path (str "/api/seal") then sealHandler c r
  else http.NotFound c

/-! ## Predicates used to state the properties -/

/-- The log entry `e` is a call of the sealing delegate. -/
def Event.isDelegate : Event → Bool
  | Event.NewSealedSecret _ _ => true
  | _ => false

/-- The computation `m` writes nothing to `out`, and what it adds to the log
holds no call of the sealing delegate. -/
def M.Quiet {α : Type} (m : M α) : Prop :=
  ∀ st, (m st).2.out = st.out ∧
    ∃ evs, (m st).2.log = st.log ++ evs ∧ ∀ e ∈ evs, e.isDelegate = false

/-- What the computation `m` adds to the log holds calls of the sealing
delegate only on secrets satisfying `Q`. -/
def M.Sealing {α : Type} (Q : Secret → Prop) (m : M α) : Prop :=
  ∀ st, ∃ evs, (m st).2.log = st.log ++ evs ∧
    ∀ pk sec, Event.NewSealedSecret pk sec ∈ evs → Q sec

/-- The computation `m` writes nothing to `out`, and in every state it returns
the value `v`: `some a` for the result `a`, `none` for an error. -/
def M.Returns {α : Type} (m : M α) (v : Option α) : Prop :=
  ∀ st, (m st).1.toOption = v ∧ (m st).2.out = st.out

/-- The result of GetTLS once the two variables are chosen: both variables are
looked up, the certificate file is read, and the key file is read if that
succeeded. -/
def sealer.GetTLS.outcome (w : World) (certVar keyVar : Bytes) (st : St) :
    Except GoError (Bytes × Bytes) × St :=
  let certFile := w.Getenv certVar
  let keyFile := w.Getenv keyVar
  match w.ReadFile certFile with
  | Except.error _ =>
    (Except.error (str "Cannot read tls cert file"),
      { st with log := st.log ++
          [Event.Getenv certVar, Event.Getenv keyVar, Event.ReadFile certFile] })
  | Except.ok certData =>
    match w.ReadFile keyFile with
    | Except.error _ =>
      (Except.error (str "Cannot read tls key file"),
        { st with log := st.log ++ [Event.Getenv certVar, Event.Getenv keyVar,
            Event.ReadFile certFile, Event.ReadFile keyFile] })
    | Except.ok keyData =>
      (Except.ok (certData, keyData),
        { st with log := st.log ++ [Event.Getenv certVar, Event.Getenv keyVar,
            Event.ReadFile certFile, Event.ReadFile keyFile] })


/-! ## What a seal call has to write, as a function of the world

The definitions of this section describe, without state and without error
messages, the one artifact a seal call produces and its encoding: `none` when
some step fails. They are what the code of `bitnami` is compared with. -/

/-- The two environment variables of a cluster: the one naming its certificate
file and the one naming its kubeconfig file. -/
def spec.clusterVars (cluster : Bytes) : Option (Bytes × Bytes) :=
  if cluster = str "production" then some (str "PROD_CERT_FILE", str "PROD_KUBECONFIG_FILE")
  else if cluster = str "lab" then some (str "LAB_CERT_FILE", str "LAB_KUBECONFIG_FILE")
  else if cluster = str "dev" then some (str "DEV_CERT_FILE", str "DEV_KUBECONFIG_FILE")
  else if cluster = str "stage" then some (str "STAGE_CERT_FILE", str "STAGE_KUBECONFIG_FILE")
  else none

/-- The two environment variables of a domain: the one naming the certificate
file and the one naming the key file of its suffix. -/
def spec.domainVars (domain : Bytes) : Option (Bytes × Bytes) :=
  if str ".services.teko.vn" <:+ domain then
    some (str "SERVICES_TLS_CERT_FILE", str "SERVICES_TLS_KEY_FILE")
  else if str ".teko.vn" <:+ domain then some (str "TEKO_TLS_CERT_FILE", str "TEKO_TLS_KEY_FILE")
  else if str ".vnshop.vn" <:+ domain then
    some (str "VNSHOP_TLS_CERT_FILE", str "VNSHOP_TLS_KEY_FILE")
  else none

/-- The certificate and key of a domain: the contents of the two files its
variables name. -/
def spec.tlsPair (w : World) (domain : Bytes) : Option (Bytes × Bytes) :=
  (spec.domainVars domain).bind fun vars =>
  (w.ReadFile (w.Getenv vars.1)).toOption.bind fun cert =>
  (w.ReadFile (w.Getenv vars.2)).toOption.bind fun key =>
  some (cert, key)

/-- The certificate source of a call: the file `certFilePath` if that is not
empty, else the controller's `/v1/cert.pem` fetched through the cluster the
kubeconfig names. -/
def spec.certificate (w : World) (s : bitnami.SealService) (certFilePath kubeconfig : Bytes) :
    Option Reader :=
  if certFilePath ≠ [] then (w.Open certFilePath).toOption
  else
    (w.ClientConfig kubeconfig).toOption.bind fun conf =>
    (w.NewForConfig { conf with AcceptContentTypes := str "application/x-pem-file, */*" }).toOption.bind
      fun client =>
    (w.ProxyGet client s.controllerNs s.controllerName (str "/v1/cert.pem")).toOption

/-- The public key of a certificate source: the RSA key of the first
certificate of the PEM data read from it. -/
def spec.publicKey (w : World) (f : Reader) : Option RSAPublicKey :=
  f.content.toOption.bind fun data =>
  (w.ParseCertsPEM data).toOption.bind fun certs =>
  match certs with
  | [] => none
  | c :: _ =>
    match c.PublicKey with
    | PublicKey.rsa k => some k
    | PublicKey.other _ => none

/-- The artifact of a call: what the sealing delegate answers for the public
key of the call's certificate source and the secret of the call, its
server-populated metadata cleared. -/
def spec.artifact (w : World) (s : bitnami.SealService) (secret : Secret)
    (certFilePath kubeconfig : Bytes) : Option SealedSecret :=
  (spec.certificate w s certFilePath kubeconfig).bind fun f =>
  (spec.publicKey w f).bind fun pubKey =>
  (w.NewSealedSecret pubKey (bitnami.SealService.seal.strip secret)).toOption

/-- The media type of the configured output format, compared in lower case. -/
def spec.mediaType (w : World) (s : bitnami.SealService) : Option Bytes :=
  if strings.ToLower w.mapLower s.outputFormat = str "json" ∨
      strings.ToLower w.mapLower s.outputFormat = str "" then
    some (str "application/json")
  else if strings.ToLower w.mapLower s.outputFormat = str "yaml" then
    some (str "application/yaml")
  else none

/-- The encoder of the configured output format: the codecs' encoder for the
sealed-secret version over the pretty serializer of the format's media type,
or over its plain serializer when it has no pretty one. -/
def spec.encoder (w : World) (s : bitnami.SealService) : Option Encoder :=
  (spec.mediaType w s).bind fun mediaType =>
  (runtime.SerializerInfoForMediaType w.SupportedMediaTypes mediaType).bind fun info =>
  some (w.EncoderForVersion
    (match info.PrettySerializer with
      | some e => e
      | none => info.Serializer))

/-- The encoding of an artifact in the configured output format. -/
def spec.encode (w : World) (s : bitnami.SealService) (ssecret : SealedSecret) : Option Bytes :=
  (spec.encoder w s).bind fun enc => (enc.Encode ssecret).toOption

/-- The encoded artifact of a call that seals `secret`. -/
def spec.encoded (w : World) (s : bitnami.SealService) (secret : Secret)
    (certFilePath kubeconfig : Bytes) : Option Bytes :=
  (spec.artifact w s secret certFilePath kubeconfig).bind fun ssecret => spec.encode w s ssecret

/-- The encoded artifact of a call of SealOpaque: the secret is the Opaque
descriptor of the request, the certificate source the one of the cluster. -/
def spec.SealOpaque (w : World) (s : bitnami.SealService) (cluster name ns : Bytes)
    (data : List (Bytes × Bytes)) : Option Bytes :=
  (spec.clusterVars cluster).bind fun vars =>
  spec.encoded w s (sealer.CreateSecret name ns v1.SecretTypeOpaque data)
    (w.Getenv vars.1) (w.Getenv vars.2)

/-- The encoded artifact of a call of SealDockerconfigjson: the secret carries
the docker config payload of the registry host and the credentials. -/
def spec.SealDockerconfigjson (w : World) (s : bitnami.SealService)
    (cluster name ns username password : Bytes) : Option Bytes :=
  (spec.clusterVars cluster).bind fun vars =>
  spec.encoded w s
    (sealer.CreateSecret name ns v1.SecretTypeDockerConfigJson
      [(v1.DockerConfigJsonKey, sealer.CreateDockerconfigjson s.registryHost username password)])
    (w.Getenv vars.1) (w.Getenv vars.2)

/-- The encoded artifact of a call of SealTLS: the secret is named after the
domain and carries the certificate and key of the domain. -/
def spec.SealTLS (w : World) (s : bitnami.SealService) (cluster ns domain : Bytes) :
    Option Bytes :=
  (spec.clusterVars cluster).bind fun vars =>
  (spec.tlsPair w domain).bind fun pair =>
  spec.encoded w s
    (sealer.CreateSecret (domain ++ str "-tls") ns v1.SecretTypeTLS
      [(v1.TLSCertKey, pair.1), (v1.TLSPrivateKeyKey, pair.2)])
    (w.Getenv vars.1) (w.Getenv vars.2)

/-- The all-or-nothing property of a seal call that started in state `st` and
ended with `res`, where `encoded` is the encoded artifact of the call: the
call returns an error exactly when there is no encoded artifact, and then
`out` holds what it held before; when it returns nil, `out` has grown by
exactly the encoded artifact followed by one newline byte. -/
def bitnami.allOrNothing (st : St) (encoded : Option Bytes)
    (res : Except GoError Unit × St) : Prop :=
  match res.1 with
  | Except.error _ => encoded = none ∧ res.2.out = st.out
  | Except.ok _ => ∃ buf, encoded = some buf ∧ res.2.out = st.out ++ buf ++ str "\n"

/-- The computation `m` is all-or-nothing in every state. -/
def M.Yields (m : M Unit) (encoded : Option Bytes) : Prop :=
  ∀ st, bitnami.allOrNothing st encoded (m st)

/-! ## Requests that match no seal route -/

/-- The paths of the three seal routes. -/
def rest.sealPaths : List Bytes := rest.NewSealHandler.routes.map fun route => route.2

/-- The path the router redirects a request to, if it does, for a request whose
path is no seal route. Only a POST under "/api/seal" can be redirected:

* when the path is a seal route followed by "/", to that route;
* else when the cleaned path (empty, `.` and `..` elements removed) is a seal
  route up to letter case, to that route;
* else when the cleaned path is "/", to the empty path, which net/http
  resolves to "/";
* else when the cleaned path is a seal route followed by "/", up to letter
  case, to that route. -/
def rest.redirectTarget (mapLower : Bytes → Bytes) (r : Request) : Option Bytes :=
  if r.Method = str "POST" ∧ str "/api/seal" <+: r.Path then
    match rest.sealPaths.find? fun route => route ++ str "/" == r.Path with
    | some route => some route
    | none =>
      match rest.sealPaths.find? fun route =>
          route == strings.ToLower mapLower (httprouter.CleanPath r.Path) with
      | some route => some route
      | none =>
        if httprouter.CleanPath r.Path = str "/" then some []
        else
          rest.sealPaths.find? fun route =>
            route ++ str "/" == strings.ToLower mapLower (httprouter.CleanPath r.Path)
  else none

/-! ## A concrete world, used to evaluate the code on explicit inputs -/

/-- An encoder that writes a tag followed by the name of the sealed secret. -/
def example.encoder (tag : Bytes) : Encoder :=
  { Encode := fun ssecret => Except.ok (tag ++ ssecret.Name) }

/-- A world in which only the `dev` cluster has a certificate file, the file
holds one certificate with an RSA key, the delegate copies the secret, and the
codecs know JSON and YAML. -/
def example.world : World :=
  { Getenv := fun name => if name = str "DEV_CERT_FILE" then str "/certs/dev.pem" else []
    ReadFile := fun _ => Except.error (str "no such file or directory")
    Open := fun path =>
      if path = str "/certs/dev.pem" then Except.ok { content := Except.ok (str "PEM") }
      else Except.error (str "no such file or directory")
    ClientConfig := fun _ => Except.error (str "invalid configuration")
    NewForConfig := fun conf => Except.ok conf
    ProxyGet := fun _ _ _ _ => Except.error (str "connection refused")
    ParseCertsPEM := fun data =>
      if data = str "PEM" then Except.ok [{ PublicKey := PublicKey.rsa { N := 3233, E := 17 } }]
      else Except.error (str "data does not contain any valid RSA or ECDSA certificates")
    NewSealedSecret := fun _ secret =>
      Except.ok { Name := secret.Name, Namespace := secret.Namespace,
                  EncryptedData := secret.Data }
    SupportedMediaTypes :=
      [{ MediaType := str "application/json", Serializer := example.encoder (str "json:"),
         PrettySerializer := some (example.encoder (str "pretty-json:")) },
       { MediaType := str "application/yaml", Serializer := example.encoder (str "yaml:"),
         PrettySerializer := none }]
    EncoderForVersion := fun e => e
    mapLower := fun s => s }

/-- The state at the start of a call: an empty writer and an empty log. -/
def St.init : St := { out := [], log := [] }

/-- The value a client decoding the response into a sealResponse finds in the
field `sealedSecret`: the bytes of the field, or none when it is absent. -/
def JSONObject.sealedSecret (obj : JSONObject) : Bytes :=
  match List.lookup (str "sealedSecret") obj with
  | some (JSONValue.bytes b) => b
  | _ => []

/-- What a seal handler does with a request, in the words of the
specification. `decoded` is the result of decoding the body, `call` the call
the handler makes on the seal service for a decoded request and `run` what the
service answers; `c` is the response before and `res` after the handler.

* body does not decode: status 403, the service is not called, the body is a
  JSON object with the field `err` set to the decoder's message;
* the service returns an error: status 500 and `err` is "internal error";
* the service succeeds: status 200 is sent by the first write, nothing is
  reported as an error, and `sealedSecret` holds the bytes the service wrote. -/
def rest.handlerSpec {α : Type} (decoded : Except GoError α) (call : α → Call)
    (run : α → List Bytes × Option GoError) (c res : Conn) : Prop :=
  match decoded with
  | Except.error err =>
    res.status = some 403 ∧ res.calls = c.calls ∧
    res.body = c.body ++ [Chunk.json [(str "err", JSONValue.string err)]]
  | Except.ok req =>
    res.calls = c.calls ++ [call req] ∧
    match run req with
    | (_, some _) =>
      res.status = some 500 ∧
      res.body = c.body ++ [Chunk.json [(str "err", JSONValue.string (str "internal error"))]]
    | (writes, none) =>
      res.status = some 200 ∧ res.printed = c.printed ∧
      ∃ obj, res.body = c.body ++ [Chunk.json obj] ∧
        List.lookup (str "err") obj = none ∧
        JSONObject.sealedSecret obj = writes.flatten

/-- A decoder that accepts the body `ok` and rejects every other body the way
encoding/json rejects a truncated document. -/
def example.decoder : json.Decoder :=
  { sealOpaqueRequest := fun body =>
      if body = str "ok" then
        Except.ok { Cluster := str "dev", Name := str "s1", Namespace := str "default",
                    Data := [(str "k", str "test")] }
      else if body = str "prod" then
        Except.ok { Cluster := str "prod", Name := str "s1", Namespace := str "default",
                    Data := [] }
      else Except.error (str "unexpected end of JSON input")
    sealDockerconfigjsonRequest := fun body =>
      if body = str "ok" then
        Except.ok { Cluster := str "dev", Name := str "s1", Namespace := str "default",
                    Username := str "u", Password := str "p" }
      else Except.error (str "unexpected end of JSON input")
    sealTLSRequest := fun body =>
      if body = str "ok" then
        Except.ok { Cluster := str "dev", Namespace := str "default",
                    Domain := str "a.teko.vn" }
      else Except.error (str "unexpected end of JSON input") }

/-- A seal service that knows the cluster `dev` only, and writes its answer in
two writes. -/
def example.handler : rest.SealHandler :=
  { SealService :=
    { SealOpaque := fun cluster name _ _ =>
        if cluster = str "dev" then ([str "sealed:" ++ name, str "\n"], none)
        else ([], some (str "Invalid cluster: " ++ cluster))
      SealDockerconfigjson := fun cluster name _ _ _ =>
        if cluster = str "dev" then ([str "sealed:" ++ name, str "\n"], none)
        else ([], some (str "Invalid cluster: " ++ cluster))
      SealTLS := fun cluster _ domain =>
        if cluster = str "dev" then ([str "sealed:" ++ domain, str "\n"], none)
        else ([], some (str "Invalid cluster: " ++ cluster)) } }

/-- A POST of `body` to `path`. -/
def example.post (path body : Bytes) : Request :=
  { Method := str "POST", Path := path, Body := body }

/-! ## Base64 as RFC 4648 describes it -/

/-- The standard padded base64 encoding in the words of RFC 4648, section 4:
each group of three bytes (24 bits) is cut into four 6-bit numbers, each
written as the letter of the alphabet at that index; a last group of two
bytes gives three letters and one `=`, a last group of one byte gives two
letters and two `=`. -/
def spec.base64 : Bytes → Bytes
  | a :: b :: c :: rest =>
    base64.encode (a / 4) :: base64.encode (a % 4 * 16 + b / 16) ::
      base64.encode (b % 16 * 4 + c / 64) :: base64.encode (c % 64) :: spec.base64 rest
  | [a, b] =>
    [base64.encode (a / 4), base64.encode (a % 4 * 16 + b / 16), base64.encode (b % 16 * 4), 61]
  | [a] => [base64.encode (a / 4), base64.encode (a % 4 * 16), 61, 61]
  | [] => []

/-- The index of a letter in the base64 alphabet. -/
def spec.base64Index (c : Nat) : Option Nat :=
  if c ∈ base64.encodeStd then some (base64.encodeStd.indexOf c) else none

/-- The decoder of RFC 4648: four letters give three bytes; a final group
ending in one or two `=` gives two bytes or one. -/
def spec.base64Decode : Bytes → Option Bytes
  | [] => some []
  | c0 :: c1 :: c2 :: c3 :: rest =>
    match spec.base64Index c0, spec.base64Index c1 with
    | some i0, some i1 =>
      if c2 = 61 ∧ c3 = 61 ∧ rest = [] then some [i0 * 4 + i1 / 16]
      else
        match spec.base64Index c2 with
        | none => none
        | some i2 =>
          if c3 = 61 ∧ rest = [] then some [i0 * 4 + i1 / 16, i1 % 16 * 16 + i2 / 4]
          else
            match spec.base64Index c3, spec.base64Decode rest with
            | some i3, some tail =>
              some ((i0 * 4 + i1 / 16) :: (i1 % 16 * 16 + i2 / 4) :: (i2 % 4 * 64 + i3) :: tail)
            | _, _ => none
    | _, _ => none
  | _ => none

/-! # Theorems -/

/-! ## Running the monad -/

theorem M.bind_eq {α β : Type} (m : M α) (f : α → M β) (s : St) :
    (m >>= f) s = match m s with
      | (Except.ok a, s1) => f a s1
      | (Except.error e, s1) => (Except.error e, s1) := rfl

theorem M.pure_eq {α : Type} (a : α) (s : St) : (pure a : M α) s = (Except.ok a, s) := rfl

theorem os.Getenv_eq (w : World) (name : Bytes) (s : St) :
    os.Getenv w name s
      = (Except.ok (w.Getenv name), { s with log := s.log ++ [Event.Getenv name] }) := rfl

theorem sealer.CertFilePath_eq (w : World) (c : Bytes) (st : St) :
    sealer.CertFilePath w c st =
      if c = str "production" then os.Getenv w (str "PROD_CERT_FILE") st
      else if c = str "lab" then os.Getenv w (str "LAB_CERT_FILE") st
      else if c = str "dev" then os.Getenv w (str "DEV_CERT_FILE") st
      else if c = str "stage" then os.Getenv w (str "STAGE_CERT_FILE") st
      else (Except.error (str "Invalid cluster: " ++ c), st) := by
  unfold sealer.CertFilePath
  split_ifs <;> rfl

theorem sealer.KubeconfigFile_eq (w : World) (c : Bytes) (st : St) :
    sealer.KubeconfigFile w c st =
      if c = str "production" then os.Getenv w (str "PROD_KUBECONFIG_FILE") st
      else if c = str "lab" then os.Getenv w (str "LAB_KUBECONFIG_FILE") st
      else if c = str "dev" then os.Getenv w (str "DEV_KUBECONFIG_FILE") st
      else if c = str "stage" then os.Getenv w (str "STAGE_KUBECONFIG_FILE") st
      else (Except.error (str "Invalid cluster: " ++ c), st) := by
  unfold sealer.KubeconfigFile
  split_ifs <;> rfl

/-- The four cluster names recognised by the lookups. -/
theorem clusters_distinct :
    str "production" ≠ str "lab" ∧ str "production" ≠ str "dev" ∧
    str "production" ≠ str "stage" ∧ str "lab" ≠ str "dev" ∧ str "lab" ≠ str "stage" ∧
    str "dev" ≠ str "stage" := by decide

/-- C1. For every string `c`, every world and every state, CertFilePath and
KubeconfigFile return an error exactly when `c` is none of "production",
"lab", "dev", "stage"; on each of the four names both succeed and return the
value `os.Getenv` gives for the variable of that cluster (the empty string
when it is unset), and the error of any other name is "Invalid cluster: c". -/
theorem C1_cluster_lookups (w : World) (c : Bytes) (st : St) :
    ((∃ e, (sealer.CertFilePath w c st).1 = Except.error e) ↔
      c ∉ [str "production", str "lab", str "dev", str "stage"]) ∧
    ((∃ e, (sealer.KubeconfigFile w c st).1 = Except.error e) ↔
      c ∉ [str "production", str "lab", str "dev", str "stage"]) ∧
    (c = str "production" →
      (sealer.CertFilePath w c st).1 = Except.ok (w.Getenv (str "PROD_CERT_FILE")) ∧
      (sealer.KubeconfigFile w c st).1 = Except.ok (w.Getenv (str "PROD_KUBECONFIG_FILE"))) ∧
    (c = str "lab" →
      (sealer.CertFilePath w c st).1 = Except.ok (w.Getenv (str "LAB_CERT_FILE")) ∧
      (sealer.KubeconfigFile w c st).1 = Except.ok (w.Getenv (str "LAB_KUBECONFIG_FILE"))) ∧
    (c = str "dev" →
      (sealer.CertFilePath w c st).1 = Except.ok (w.Getenv (str "DEV_CERT_FILE")) ∧
      (sealer.KubeconfigFile w c st).1 = Except.ok (w.Getenv (str "DEV_KUBECONFIG_FILE"))) ∧
    (c = str "stage" →
      (sealer.CertFilePath w c st).1 = Except.ok (w.Getenv (str "STAGE_CERT_FILE")) ∧
      (sealer.KubeconfigFile w c st).1 = Except.ok (w.Getenv (str "STAGE_KUBECONFIG_FILE"))) ∧
    (c ∉ [str "production", str "lab", str "dev", str "stage"] →
      sealer.CertFilePath w c st = (Except.error (str "Invalid cluster: " ++ c), st) ∧
      sealer.KubeconfigFile w c st = (Except.error (str "Invalid cluster: " ++ c), st)) := by
  obtain ⟨h1, h2, h3, h4, h5, h6⟩ := clusters_distinct
  rw [sealer.CertFilePath_eq, sealer.KubeconfigFile_eq]
  simp only [os.Getenv_eq, List.mem_cons, List.mem_singleton, List.not_mem_nil, or_false]
  by_cases p1 : c = str "production"
  · subst p1; simp [h1, h2, h3]
  by_cases p2 : c = str "lab"
  · subst p2; simp [h4, h5, Ne.symm h1]
  by_cases p3 : c = str "dev"
  · subst p3; simp [h6, Ne.symm h2, Ne.symm h4]
  by_cases p4 : c = str "stage"
  · subst p4; simp [Ne.symm h3, Ne.symm h5, Ne.symm h6]
  simp [p1, p2, p3, p4]

/-! ## Suffixes and prefixes -/

theorem strings.HasSuffix_iff (s suf : Bytes) : strings.HasSuffix s suf = true ↔ suf <:+ s := by
  unfold strings.HasSuffix
  simp only [ge_iff_le, Bool.and_eq_true, decide_eq_true_eq, beq_iff_eq]
  constructor
  · rintro ⟨_, h⟩
    rw [← h]
    exact List.drop_suffix _ _
  · rintro ⟨t, rfl⟩
    simp

theorem strings.HasPrefix_iff (s pre : Bytes) : strings.HasPrefix s pre = true ↔ pre <+: s := by
  unfold strings.HasPrefix
  simp only [ge_iff_le, Bool.and_eq_true, decide_eq_true_eq, beq_iff_eq]
  constructor
  · rintro ⟨_, h⟩
    rw [← h]
    exact List.take_prefix _ _
  · rintro ⟨t, rfl⟩
    simp

theorem services_suffix_teko (d : Bytes) (h : str ".services.teko.vn" <:+ d) :
    str ".teko.vn" <:+ d :=
  List.IsSuffix.trans (by decide) h

theorem vnshop_not_teko (d : Bytes) (h : str ".vnshop.vn" <:+ d) : ¬ str ".teko.vn" <:+ d := by
  intro h2
  have := List.suffix_of_suffix_length_le h2 h (by decide)
  revert this
  decide

theorem vnshop_not_services (d : Bytes) (h : str ".vnshop.vn" <:+ d) :
    ¬ str ".services.teko.vn" <:+ d :=
  fun h2 => vnshop_not_teko d h (services_suffix_teko d h2)

theorem ioutil.ReadFile_eq (w : World) (path : Bytes) (s : St) :
    ioutil.ReadFile w path s
      = (w.ReadFile path, { s with log := s.log ++ [Event.ReadFile path] }) := by
  show (match (M.emit (Event.ReadFile path) s) with
      | (Except.ok a, s1) => M.ofExcept (w.ReadFile path) s1
      | (Except.error e, s1) => (Except.error e, s1)) = _
  rfl

theorem sealer.GetTLS_of_files (w : World) (d certVar keyVar : Bytes) (st : St)
    (h : sealer.GetTLS.files w d st = (Except.ok (w.Getenv certVar, w.Getenv keyVar),
      { st with log := st.log ++ [Event.Getenv certVar, Event.Getenv keyVar] })) :
    sealer.GetTLS w d st = sealer.GetTLS.outcome w certVar keyVar st := by
  unfold sealer.GetTLS sealer.GetTLS.outcome
  simp only [M.bind_eq, h, M.try, ioutil.ReadFile_eq]
  cases hc : w.ReadFile (w.Getenv certVar) with
  | error e => simp [M.fail]
  | ok certData =>
    cases hk : w.ReadFile (w.Getenv keyVar) with
    | error e => simp [M.fail, M.bind_eq, M.try, ioutil.ReadFile_eq, hk]
    | ok keyData =>
      simp [M.bind_eq, M.try, ioutil.ReadFile_eq, hk]
      rfl

theorem sealer.GetTLS.files_pair (w : World) (certVar keyVar : Bytes) (st : St) :
    (do
      let certFile ← os.Getenv w certVar
      let keyFile ← os.Getenv w keyVar
      pure (certFile, keyFile) : M (Bytes × Bytes)) st
    = (Except.ok (w.Getenv certVar, w.Getenv keyVar),
      { st with log := st.log ++ [Event.Getenv certVar, Event.Getenv keyVar] }) := by
  simp [M.bind_eq, os.Getenv_eq]
  rfl

theorem sealer.GetTLS_services (w : World) (d : Bytes) (st : St)
    (h : str ".services.teko.vn" <:+ d) :
    sealer.GetTLS w d st = sealer.GetTLS.outcome w (str "SERVICES_TLS_CERT_FILE")
      (str "SERVICES_TLS_KEY_FILE") st := by
  apply sealer.GetTLS_of_files
  unfold sealer.GetTLS.files
  rw [if_pos ((strings.HasSuffix_iff _ _).2 h)]
  exact sealer.GetTLS.files_pair w _ _ st

theorem sealer.GetTLS_teko (w : World) (d : Bytes) (st : St)
    (h : str ".teko.vn" <:+ d) (h1 : ¬ str ".services.teko.vn" <:+ d) :
    sealer.GetTLS w d st = sealer.GetTLS.outcome w (str "TEKO_TLS_CERT_FILE")
      (str "TEKO_TLS_KEY_FILE") st := by
  apply sealer.GetTLS_of_files
  unfold sealer.GetTLS.files
  rw [if_neg (fun hh => h1 ((strings.HasSuffix_iff _ _).1 hh)),
    if_pos ((strings.HasSuffix_iff _ _).2 h)]
  exact sealer.GetTLS.files_pair w _ _ st

theorem sealer.GetTLS_vnshop (w : World) (d : Bytes) (st : St)
    (h : str ".vnshop.vn" <:+ d) :
    sealer.GetTLS w d st = sealer.GetTLS.outcome w (str "VNSHOP_TLS_CERT_FILE")
      (str "VNSHOP_TLS_KEY_FILE") st := by
  apply sealer.GetTLS_of_files
  unfold sealer.GetTLS.files
  rw [if_neg (fun hh => vnshop_not_services d h ((strings.HasSuffix_iff _ _).1 hh)),
    if_neg (fun hh => vnshop_not_teko d h ((strings.HasSuffix_iff _ _).1 hh)),
    if_pos ((strings.HasSuffix_iff _ _).2 h)]
  exact sealer.GetTLS.files_pair w _ _ st

theorem sealer.GetTLS_unsupported (w : World) (d : Bytes) (st : St)
    (h1 : ¬ str ".services.teko.vn" <:+ d) (h2 : ¬ str ".teko.vn" <:+ d)
    (h3 : ¬ str ".vnshop.vn" <:+ d) :
    sealer.GetTLS w d st = (Except.error (sealer.unsupportedDomain d), st) := by
  have hf : sealer.GetTLS.files w d st = (Except.error (sealer.unsupportedDomain d), st) := by
    unfold sealer.GetTLS.files
    rw [if_neg (fun hh => h1 ((strings.HasSuffix_iff _ _).1 hh)),
      if_neg (fun hh => h2 ((strings.HasSuffix_iff _ _).1 hh)),
      if_neg (fun hh => h3 ((strings.HasSuffix_iff _ _).1 hh))]
    rfl
  unfold sealer.GetTLS
  simp only [M.bind_eq, hf]

theorem cannot_read_ne_unsupported (d : Bytes) :
    str "Cannot read tls cert file" ≠ sealer.unsupportedDomain d ∧
    str "Cannot read tls key file" ≠ sealer.unsupportedDomain d := by
  unfold sealer.unsupportedDomain
  constructor <;>
  · intro h
    have := congrArg List.head? h
    revert this
    simp [str, utf8]

theorem sealer.GetTLS.outcome_not_unsupported (w : World) (d certVar keyVar : Bytes) (st : St) :
    (sealer.GetTLS.outcome w certVar keyVar st).1 ≠ Except.error (sealer.unsupportedDomain d) := by
  unfold sealer.GetTLS.outcome
  dsimp only
  split
  · simpa using (cannot_read_ne_unsupported d).1
  · split
    · simpa using (cannot_read_ne_unsupported d).2
    · simp

/-- C2. For every domain `d`, GetTLS fails with the unsupported-domain error
exactly when `d` ends in none of ".services.teko.vn", ".teko.vn",
".vnshop.vn"; and when it does, the call returns with the state untouched:
nothing is logged, so no environment variable is looked up and no certificate
or key file is read. -/
theorem C2_GetTLS_unsupported_domain (w : World) (d : Bytes) (st : St) :
    ((sealer.GetTLS w d st).1 = Except.error (sealer.unsupportedDomain d) ↔
      (¬ str ".services.teko.vn" <:+ d ∧ ¬ str ".teko.vn" <:+ d ∧
        ¬ str ".vnshop.vn" <:+ d)) ∧
    ((sealer.GetTLS w d st).1 = Except.error (sealer.unsupportedDomain d) →
      (sealer.GetTLS w d st).2 = st ∧
      ∀ path, Event.ReadFile path ∈ (sealer.GetTLS w d st).2.log →
        Event.ReadFile path ∈ st.log) := by
  have key : (sealer.GetTLS w d st).1 = Except.error (sealer.unsupportedDomain d) →
      (¬ str ".services.teko.vn" <:+ d ∧ ¬ str ".teko.vn" <:+ d ∧
        ¬ str ".vnshop.vn" <:+ d) := by
    intro h
    by_cases h1 : str ".services.teko.vn" <:+ d
    · rw [sealer.GetTLS_services w d st h1] at h
      exact absurd h (sealer.GetTLS.outcome_not_unsupported w d _ _ st)
    by_cases h2 : str ".teko.vn" <:+ d
    · rw [sealer.GetTLS_teko w d st h2 h1] at h
      exact absurd h (sealer.GetTLS.outcome_not_unsupported w d _ _ st)
    by_cases h3 : str ".vnshop.vn" <:+ d
    · rw [sealer.GetTLS_vnshop w d st h3] at h
      exact absurd h (sealer.GetTLS.outcome_not_unsupported w d _ _ st)
    exact ⟨h1, h2, h3⟩
  refine ⟨⟨key, ?_⟩, ?_⟩
  · rintro ⟨h1, h2, h3⟩
    rw [sealer.GetTLS_unsupported w d st h1 h2 h3]
  · intro h
    obtain ⟨h1, h2, h3⟩ := key h
    rw [sealer.GetTLS_unsupported w d st h1 h2 h3]
    exact ⟨rfl, fun _ hp => hp⟩

/-- C3. For a domain ending in ".services.teko.vn" (which then also ends in
".teko.vn") GetTLS looks up SERVICES_TLS_CERT_FILE and SERVICES_TLS_KEY_FILE
and never a TEKO_TLS variable; for one ending in ".teko.vn" but not in
".services.teko.vn" it looks up the TEKO_TLS pair; for one ending in
".vnshop.vn" the VNSHOP_TLS pair. In each case the call is
`sealer.GetTLS.outcome` on that pair: the certificate file named by the first
variable is read, then (if that read succeeded) the key file named by the
second, no other file is read, and on success the result is exactly
(contents of the certificate file, contents of the key file). -/
theorem C3_GetTLS_selects_pair (w : World) (d : Bytes) (st : St) :
    (str ".services.teko.vn" <:+ d →
      str ".teko.vn" <:+ d ∧
      sealer.GetTLS w d st = sealer.GetTLS.outcome w (str "SERVICES_TLS_CERT_FILE")
        (str "SERVICES_TLS_KEY_FILE") st ∧
      Event.Getenv (str "TEKO_TLS_CERT_FILE") ∉
        (sealer.GetTLS w d st).2.log.drop st.log.length ∧
      Event.Getenv (str "TEKO_TLS_KEY_FILE") ∉
        (sealer.GetTLS w d st).2.log.drop st.log.length) ∧
    (str ".teko.vn" <:+ d → ¬ str ".services.teko.vn" <:+ d →
      sealer.GetTLS w d st = sealer.GetTLS.outcome w (str "TEKO_TLS_CERT_FILE")
        (str "TEKO_TLS_KEY_FILE") st) ∧
    (str ".vnshop.vn" <:+ d →
      sealer.GetTLS w d st = sealer.GetTLS.outcome w (str "VNSHOP_TLS_CERT_FILE")
        (str "VNSHOP_TLS_KEY_FILE") st) ∧
    (∀ cert key, (sealer.GetTLS w d st).1 = Except.ok (cert, key) →
      ∃ certVar keyVar,
        (certVar, keyVar) ∈
          [(str "SERVICES_TLS_CERT_FILE", str "SERVICES_TLS_KEY_FILE"),
           (str "TEKO_TLS_CERT_FILE", str "TEKO_TLS_KEY_FILE"),
           (str "VNSHOP_TLS_CERT_FILE", str "VNSHOP_TLS_KEY_FILE")] ∧
        w.ReadFile (w.Getenv certVar) = Except.ok cert ∧
        w.ReadFile (w.Getenv keyVar) = Except.ok key ∧
        (sealer.GetTLS w d st).2.log = st.log ++
          [Event.Getenv certVar, Event.Getenv keyVar,
           Event.ReadFile (w.Getenv certVar), Event.ReadFile (w.Getenv keyVar)]) := by
  have succ : ∀ certVar keyVar cert key,
      (sealer.GetTLS.outcome w certVar keyVar st).1 = Except.ok (cert, key) →
      w.ReadFile (w.Getenv certVar) = Except.ok cert ∧
      w.ReadFile (w.Getenv keyVar) = Except.ok key ∧
      (sealer.GetTLS.outcome w certVar keyVar st).2.log = st.log ++
        [Event.Getenv certVar, Event.Getenv keyVar,
         Event.ReadFile (w.Getenv certVar), Event.ReadFile (w.Getenv keyVar)] := by
    intro certVar keyVar cert key
    unfold sealer.GetTLS.outcome
    dsimp only
    cases hc : w.ReadFile (w.Getenv certVar) with
    | error e => simp
    | ok certData =>
      cases hk : w.ReadFile (w.Getenv keyVar) with
      | error e => simp
      | ok keyData =>
        simp only [Except.ok.injEq, Prod.mk.injEq, and_true]
        rintro ⟨rfl, rfl⟩
        exact ⟨rfl, rfl⟩
  refine ⟨?_, ?_, ?_, ?_⟩
  · intro h
    refine ⟨services_suffix_teko d h, sealer.GetTLS_services w d st h, ?_, ?_⟩ <;>
    · rw [sealer.GetTLS_services w d st h]
      unfold sealer.GetTLS.outcome
      dsimp only
      split
      · simp only [List.drop_left, List.mem_cons, List.mem_singleton, List.not_mem_nil]
        simp
        decide
      · split <;>
        · simp only [List.drop_left, List.mem_cons, List.mem_singleton, List.not_mem_nil]
          simp
          decide
  · exact fun h h1 => sealer.GetTLS_teko w d st h h1
  · exact fun h => sealer.GetTLS_vnshop w d st h
  · intro cert key h
    by_cases h1 : str ".services.teko.vn" <:+ d
    · rw [sealer.GetTLS_services w d st h1] at h ⊢
      exact ⟨_, _, by simp, succ _ _ cert key h⟩
    by_cases h2 : str ".teko.vn" <:+ d
    · rw [sealer.GetTLS_teko w d st h2 h1] at h ⊢
      exact ⟨_, _, by simp, succ _ _ cert key h⟩
    by_cases h3 : str ".vnshop.vn" <:+ d
    · rw [sealer.GetTLS_vnshop w d st h3] at h ⊢
      exact ⟨_, _, by simp, succ _ _ cert key h⟩
    rw [sealer.GetTLS_unsupported w d st h1 h2 h3] at h
    simp at h

/-! ## Quiet computations -/

theorem M.quiet_pure {α : Type} (a : α) : M.Quiet (pure a : M α) :=
  fun st => ⟨rfl, [], by simp [M.pure_eq], by simp⟩

theorem M.quiet_fail {α : Type} (e : GoError) : M.Quiet (M.fail e : M α) :=
  fun st => ⟨rfl, [], by simp [M.fail], by simp⟩

theorem M.quiet_ofExcept {α : Type} (r : Except GoError α) : M.Quiet (M.ofExcept r) :=
  fun st => ⟨rfl, [], by simp [M.ofExcept], by simp⟩

theorem M.quiet_emit (ev : Event) (h : ev.isDelegate = false) : M.Quiet (M.emit ev) :=
  fun st => ⟨rfl, [ev], rfl, by simpa using h⟩

theorem M.quiet_bind {α β : Type} {m : M α} {f : α → M β} (hm : M.Quiet m)
    (hf : ∀ a, M.Quiet (f a)) : M.Quiet (m >>= f) := by
  intro st
  obtain ⟨ho, evs, hl, he⟩ := hm st
  rw [M.bind_eq]
  rcases hms : m st with ⟨r, s1⟩
  rw [hms] at ho hl
  cases r with
  | error e => exact ⟨ho, evs, hl, he⟩
  | ok a =>
    obtain ⟨ho2, evs2, hl2, he2⟩ := hf a s1
    refine ⟨ho2.trans ho, evs ++ evs2, ?_, ?_⟩
    · show (f a s1).2.log = _
      rw [hl2]
      simp only at hl
      rw [hl, List.append_assoc]
    · intro e hmem
      rcases List.mem_append.1 hmem with h | h
      · exact he e h
      · exact he2 e h

theorem M.quiet_try {α : Type} {m : M α} (hm : M.Quiet m) : M.Quiet (M.try m) := by
  intro st
  obtain ⟨ho, evs, hl, he⟩ := hm st
  exact ⟨ho, evs, hl, he⟩

theorem os.Getenv_quiet (w : World) (name : Bytes) : M.Quiet (os.Getenv w name) :=
  M.quiet_bind (M.quiet_emit _ rfl) (fun _ => M.quiet_pure _)

theorem ioutil.ReadFile_quiet (w : World) (path : Bytes) : M.Quiet (ioutil.ReadFile w path) :=
  M.quiet_bind (M.quiet_emit _ rfl) (fun _ => M.quiet_ofExcept _)

theorem os.Open_quiet (w : World) (path : Bytes) : M.Quiet (os.Open w path) :=
  M.quiet_bind (M.quiet_emit _ rfl) (fun _ => M.quiet_ofExcept _)

theorem ioutil.ReadAll_quiet (r : Reader) : M.Quiet (ioutil.ReadAll r) :=
  M.quiet_bind (M.quiet_emit _ rfl) (fun _ => M.quiet_ofExcept _)

theorem sealer.CertFilePath_quiet (w : World) (c : Bytes) : M.Quiet (sealer.CertFilePath w c) := by
  unfold sealer.CertFilePath
  split_ifs <;> first | exact os.Getenv_quiet _ _ | exact M.quiet_fail _

theorem sealer.KubeconfigFile_quiet (w : World) (c : Bytes) :
    M.Quiet (sealer.KubeconfigFile w c) := by
  unfold sealer.KubeconfigFile
  split_ifs <;> first | exact os.Getenv_quiet _ _ | exact M.quiet_fail _

theorem sealer.GetTLS.files_quiet (w : World) (d : Bytes) : M.Quiet (sealer.GetTLS.files w d) := by
  unfold sealer.GetTLS.files
  split_ifs
  all_goals first
    | exact M.quiet_fail _
    | exact M.quiet_bind (os.Getenv_quiet _ _)
        (fun _ => M.quiet_bind (os.Getenv_quiet _ _) (fun _ => M.quiet_pure _))

theorem sealer.GetTLS_quiet (w : World) (d : Bytes) : M.Quiet (sealer.GetTLS w d) := by
  unfold sealer.GetTLS
  refine M.quiet_bind (sealer.GetTLS.files_quiet w d) (fun files => ?_)
  refine M.quiet_bind (M.quiet_try (ioutil.ReadFile_quiet _ _)) (fun r => ?_)
  cases r with
  | error e => exact M.quiet_fail _
  | ok certData =>
    refine M.quiet_bind (M.quiet_try (ioutil.ReadFile_quiet _ _)) (fun r2 => ?_)
    cases r2 with
    | error e => exact M.quiet_fail _
    | ok keyData => exact M.quiet_pure _

theorem bitnami.SealService.openCertHTTP_quiet (w : World) (s : bitnami.SealService)
    (c : RestConfig) (ns name : Bytes) : M.Quiet (s.openCertHTTP w c ns name) := by
  unfold bitnami.SealService.openCertHTTP
  refine M.quiet_bind (M.quiet_emit _ rfl) (fun _ => ?_)
  split
  · exact M.quiet_fail _
  · exact M.quiet_pure _

theorem bitnami.SealService.openCert_quiet (w : World) (s : bitnami.SealService)
    (certFilePath kubeconfig : Bytes) : M.Quiet (s.openCert w certFilePath kubeconfig) := by
  unfold bitnami.SealService.openCert
  split_ifs
  · exact os.Open_quiet _ _
  · refine M.quiet_bind (M.quiet_emit _ rfl) (fun _ => ?_)
    split
    · exact M.quiet_fail _
    · refine M.quiet_bind (M.quiet_emit _ rfl) (fun _ => ?_)
      split
      · exact M.quiet_fail _
      · exact bitnami.SealService.openCertHTTP_quiet _ _ _ _ _

theorem bitnami.parseKey_quiet (w : World) (r : Reader) : M.Quiet (bitnami.parseKey w r) := by
  unfold bitnami.parseKey
  refine M.quiet_bind (ioutil.ReadAll_quiet _) (fun data => ?_)
  refine M.quiet_bind (M.quiet_emit _ rfl) (fun _ => ?_)
  refine M.quiet_bind (M.quiet_ofExcept _) (fun certs => ?_)
  split
  · exact M.quiet_fail _
  · split
    · exact M.quiet_pure _
    · exact M.quiet_fail _

theorem bitnami.SealService.prettyEncoder_quiet (w : World) (s : bitnami.SealService)
    (mediaType : Bytes) : M.Quiet (s.prettyEncoder w mediaType) := by
  unfold bitnami.SealService.prettyEncoder
  refine M.quiet_bind (M.quiet_emit _ rfl) (fun _ => ?_)
  split
  · exact M.quiet_fail _
  · exact M.quiet_pure _

theorem runtime.Encode_quiet (e : Encoder) (ssecret : SealedSecret) :
    M.Quiet (runtime.Encode e ssecret) :=
  M.quiet_bind (M.quiet_emit _ rfl) (fun _ => M.quiet_ofExcept _)

/-! ## What reaches the sealing delegate -/

theorem runtime.Encode_eq (e : Encoder) (ssecret : SealedSecret) (st : St) :
    runtime.Encode e ssecret st
      = (e.Encode ssecret, { st with log := st.log ++ [Event.Encode ssecret] }) := rfl

theorem bitnami.SealService.sealedSecretOutput.contentType_quiet (w : World)
    (s : bitnami.SealService) :
    M.Quiet (bitnami.SealService.sealedSecretOutput.contentType w s) := by
  unfold bitnami.SealService.sealedSecretOutput.contentType
  split_ifs <;> first | exact M.quiet_pure _ | exact M.quiet_fail _

theorem M.sealing_of_quiet {α : Type} {Q : Secret → Prop} {m : M α} (hm : M.Quiet m) :
    M.Sealing Q m := by
  intro st
  obtain ⟨_, evs, hl, he⟩ := hm st
  refine ⟨evs, hl, fun pk sec hmem => ?_⟩
  have := he _ hmem
  simp [Event.isDelegate] at this

theorem M.sealing_fail {α : Type} (Q : Secret → Prop) (e : GoError) :
    M.Sealing Q (M.fail e : M α) :=
  M.sealing_of_quiet (M.quiet_fail e)

theorem M.sealing_bind {α β : Type} {Q : Secret → Prop} {m : M α} {f : α → M β}
    (hm : M.Sealing Q m) (hf : ∀ a, M.Sealing Q (f a)) : M.Sealing Q (m >>= f) := by
  intro st
  obtain ⟨evs, hl, he⟩ := hm st
  rw [M.bind_eq]
  rcases hms : m st with ⟨r, s1⟩
  rw [hms] at hl
  simp only at hl
  cases r with
  | error e => exact ⟨evs, hl, he⟩
  | ok a =>
    obtain ⟨evs2, hl2, he2⟩ := hf a s1
    refine ⟨evs ++ evs2, ?_, ?_⟩
    · show (f a s1).2.log = _
      rw [hl2, hl, List.append_assoc]
    · intro pk sec hmem
      rcases List.mem_append.1 hmem with h | h
      · exact he pk sec h
      · exact he2 pk sec h

theorem M.sealing_try {α : Type} {Q : Secret → Prop} {m : M α} (hm : M.Sealing Q m) :
    M.Sealing Q (M.try m) := by
  intro st
  obtain ⟨evs, hl, he⟩ := hm st
  exact ⟨evs, hl, he⟩

theorem M.sealing_mono {α : Type} {Q R : Secret → Prop} {m : M α}
    (h : M.Sealing Q m) (hQR : ∀ sec, Q sec → R sec) : M.Sealing R m := by
  intro st
  obtain ⟨evs, hl, he⟩ := h st
  exact ⟨evs, hl, fun pk sec hmem => hQR sec (he pk sec hmem)⟩

theorem M.sealing_emit {Q : Secret → Prop} {pk : RSAPublicKey} {sec : Secret} (hQ : Q sec) :
    M.Sealing Q (M.emit (Event.NewSealedSecret pk sec)) := by
  intro st
  refine ⟨[Event.NewSealedSecret pk sec], rfl, ?_⟩
  intro pk2 sec2 hmem
  rcases List.mem_singleton.1 hmem with h
  simp only [Event.NewSealedSecret.injEq] at h
  rw [h.2]
  exact hQ

theorem M.sealing_write (Q : Secret → Prop) (p : Bytes) : M.Sealing Q (M.Write p) :=
  fun st => ⟨[], by simp [M.Write], by simp⟩

theorem bitnami.SealService.sealedSecretOutput_sealing (w : World) (s : bitnami.SealService)
    (Q : Secret → Prop) (ssecret : SealedSecret) :
    M.Sealing Q (s.sealedSecretOutput w ssecret) := by
  unfold bitnami.SealService.sealedSecretOutput
  refine M.sealing_bind
    (M.sealing_of_quiet (bitnami.SealService.sealedSecretOutput.contentType_quiet w s))
    (fun ct => ?_)
  refine M.sealing_bind (M.sealing_of_quiet (bitnami.SealService.prettyEncoder_quiet _ _ _))
    (fun enc => ?_)
  refine M.sealing_bind (M.sealing_try (M.sealing_of_quiet (runtime.Encode_quiet _ _)))
    (fun r => ?_)
  cases r with
  | error err => exact M.sealing_fail _ _
  | ok buf => exact M.sealing_bind (M.sealing_write _ _) (fun _ => M.sealing_write _ _)

theorem bitnami.SealService.seal_sealing (w : World) (s : bitnami.SealService)
    (secret : Secret) (certFilePath kubeconfig : Bytes) :
    M.Sealing (fun sec => sec = bitnami.SealService.seal.strip secret)
      (s.seal w secret certFilePath kubeconfig) := by
  unfold bitnami.SealService.seal
  refine M.sealing_bind
    (M.sealing_try (M.sealing_of_quiet (bitnami.SealService.openCert_quiet _ _ _ _)))
    (fun r => ?_)
  cases r with
  | error err => exact M.sealing_fail _ _
  | ok f =>
    refine M.sealing_bind (M.sealing_try (M.sealing_of_quiet (bitnami.parseKey_quiet _ _)))
      (fun r2 => ?_)
    cases r2 with
    | error err => exact M.sealing_fail _ _
    | ok pubKey =>
      refine M.sealing_bind (M.sealing_emit rfl) (fun _ => ?_)
      split
      · exact M.sealing_fail _ _
      · next ssecret hd =>
        refine M.sealing_bind
          (M.sealing_try (bitnami.SealService.sealedSecretOutput_sealing w s _ ssecret))
          (fun r3 => ?_)
        cases r3 with
        | error err => exact M.sealing_fail _ _
        | ok u => exact M.sealing_of_quiet (M.quiet_pure _)

theorem bitnami.SealService.SealOpaque_sealing (w : World) (s : bitnami.SealService)
    (cluster name ns : Bytes) (data : List (Bytes × Bytes)) :
    M.Sealing (fun sec => sec = sealer.CreateSecret name ns v1.SecretTypeOpaque data)
      (s.SealOpaque w cluster name ns data) := by
  unfold bitnami.SealService.SealOpaque
  refine M.sealing_bind (M.sealing_of_quiet (sealer.CertFilePath_quiet _ _))
    (fun certFilePath => ?_)
  refine M.sealing_bind (M.sealing_of_quiet (sealer.KubeconfigFile_quiet _ _))
    (fun kubeconfig => ?_)
  exact bitnami.SealService.seal_sealing _ _ _ _ _

theorem bitnami.SealService.SealDockerconfigjson_sealing (w : World)
    (s : bitnami.SealService) (cluster name ns username password : Bytes) :
    M.Sealing (fun sec => sec = sealer.CreateSecret name ns v1.SecretTypeDockerConfigJson
        [(v1.DockerConfigJsonKey,
          sealer.CreateDockerconfigjson s.registryHost username password)])
      (s.SealDockerconfigjson w cluster name ns username password) := by
  unfold bitnami.SealService.SealDockerconfigjson
  refine M.sealing_bind (M.sealing_of_quiet (sealer.CertFilePath_quiet _ _))
    (fun certFilePath => ?_)
  refine M.sealing_bind (M.sealing_of_quiet (sealer.KubeconfigFile_quiet _ _))
    (fun kubeconfig => ?_)
  exact bitnami.SealService.seal_sealing _ _ _ _ _

theorem bitnami.SealService.SealTLS_sealing (w : World) (s : bitnami.SealService)
    (cluster ns domain : Bytes) :
    M.Sealing (fun sec => ∃ cert key, sec = sealer.CreateSecret (domain ++ str "-tls") ns
        v1.SecretTypeTLS [(v1.TLSCertKey, cert), (v1.TLSPrivateKeyKey, key)])
      (s.SealTLS w cluster ns domain) := by
  unfold bitnami.SealService.SealTLS
  refine M.sealing_bind (M.sealing_of_quiet (sealer.CertFilePath_quiet _ _))
    (fun certFilePath => ?_)
  refine M.sealing_bind (M.sealing_of_quiet (sealer.KubeconfigFile_quiet _ _))
    (fun kubeconfig => ?_)
  refine M.sealing_bind (M.sealing_of_quiet (sealer.GetTLS_quiet _ _)) (fun ck => ?_)
  exact M.sealing_mono (bitnami.SealService.seal_sealing _ _ _ _ _)
    (fun sec h => ⟨ck.1, ck.2, h⟩)

/-! ## The value a computation returns -/

theorem M.returns_pure {α : Type} (a : α) : M.Returns (pure a : M α) (some a) :=
  fun _ => ⟨rfl, rfl⟩

theorem M.returns_fail {α : Type} (e : GoError) : M.Returns (M.fail e : M α) none :=
  fun _ => ⟨rfl, rfl⟩

theorem M.returns_ofExcept {α : Type} (r : Except GoError α) :
    M.Returns (M.ofExcept r) r.toOption :=
  fun _ => ⟨rfl, rfl⟩

theorem M.returns_congr {α : Type} {m : M α} {v u : Option α} (hm : M.Returns m v)
    (h : v = u) : M.Returns m u :=
  h ▸ hm

theorem M.returns_bind {α β : Type} {m : M α} {f : α → M β} {v : Option α}
    {g : α → Option β} (hm : M.Returns m v) (hf : ∀ a, M.Returns (f a) (g a)) :
    M.Returns (m >>= f) (v.bind g) := by
  intro st
  obtain ⟨hv, ho⟩ := hm st
  rw [M.bind_eq]
  rcases hms : m st with ⟨r, s1⟩
  rw [hms] at hv ho
  simp only at hv ho
  cases r with
  | error e =>
    have hv : v = none := hv.symm
    subst hv
    exact ⟨rfl, ho⟩
  | ok a =>
    have hv : v = some a := hv.symm
    subst hv
    obtain ⟨hv2, ho2⟩ := hf a s1
    exact ⟨hv2, ho2.trans ho⟩

theorem M.returns_emit {α : Type} {m : M α} {v : Option α} (ev : Event)
    (hm : M.Returns m v) : M.Returns (M.emit ev >>= fun _ => m) v := by
  intro st
  exact hm { st with log := st.log ++ [ev] }

theorem M.returns_try {α β : Type} {m : M α} {f : Except GoError α → M β} {v : Option α}
    {g : α → Option β} (hm : M.Returns m v) (herr : ∀ e, M.Returns (f (Except.error e)) none)
    (hok : ∀ a, M.Returns (f (Except.ok a)) (g a)) :
    M.Returns (M.try m >>= f) (v.bind g) := by
  intro st
  obtain ⟨hv, ho⟩ := hm st
  rw [M.bind_eq]
  rcases hms : m st with ⟨r, s1⟩
  rw [hms] at hv ho
  simp only at hv ho
  simp only [M.try, hms]
  cases r with
  | error e =>
    have hv : v = none := hv.symm
    subst hv
    obtain ⟨hv2, ho2⟩ := herr e s1
    exact ⟨hv2, ho2.trans ho⟩
  | ok a =>
    have hv : v = some a := hv.symm
    subst hv
    obtain ⟨hv2, ho2⟩ := hok a s1
    exact ⟨hv2, ho2.trans ho⟩

theorem os.Getenv_returns (w : World) (name : Bytes) :
    M.Returns (os.Getenv w name) (some (w.Getenv name)) :=
  fun _ => ⟨rfl, rfl⟩

theorem ioutil.ReadFile_returns (w : World) (path : Bytes) :
    M.Returns (ioutil.ReadFile w path) (w.ReadFile path).toOption :=
  fun _ => ⟨rfl, rfl⟩

theorem os.Open_returns (w : World) (path : Bytes) :
    M.Returns (os.Open w path) (w.Open path).toOption :=
  fun _ => ⟨rfl, rfl⟩

theorem ioutil.ReadAll_returns (r : Reader) : M.Returns (ioutil.ReadAll r) r.content.toOption :=
  fun _ => ⟨rfl, rfl⟩

theorem sealer.CertFilePath_returns (w : World) (c : Bytes) :
    M.Returns (sealer.CertFilePath w c) ((spec.clusterVars c).bind fun vars => some (w.Getenv vars.1)) := by
  unfold sealer.CertFilePath spec.clusterVars
  split_ifs <;> first | exact os.Getenv_returns _ _ | exact M.returns_fail _

theorem sealer.KubeconfigFile_returns (w : World) (c : Bytes) :
    M.Returns (sealer.KubeconfigFile w c)
      ((spec.clusterVars c).bind fun vars => some (w.Getenv vars.2)) := by
  unfold sealer.KubeconfigFile spec.clusterVars
  split_ifs <;> first | exact os.Getenv_returns _ _ | exact M.returns_fail _

theorem sealer.GetTLS.files_returns (w : World) (d : Bytes) :
    M.Returns (sealer.GetTLS.files w d)
      ((spec.domainVars d).bind fun vars => some (w.Getenv vars.1, w.Getenv vars.2)) := by
  unfold sealer.GetTLS.files spec.domainVars
  simp only [strings.HasSuffix_iff]
  split_ifs
  all_goals first
    | exact M.returns_fail _
    | exact M.returns_bind (os.Getenv_returns _ _)
        (fun _ => M.returns_bind (os.Getenv_returns _ _) (fun _ => M.returns_pure _))

theorem sealer.GetTLS_returns (w : World) (d : Bytes) :
    M.Returns (sealer.GetTLS w d) (spec.tlsPair w d) := by
  unfold sealer.GetTLS
  refine M.returns_congr
    (M.returns_bind (sealer.GetTLS.files_returns w d) (fun files =>
      M.returns_try (ioutil.ReadFile_returns w files.1) (fun _ => M.returns_fail _)
        (fun certData =>
          M.returns_try (ioutil.ReadFile_returns w files.2) (fun _ => M.returns_fail _)
            (fun keyData => M.returns_pure (certData, keyData))))) ?_
  unfold spec.tlsPair
  cases spec.domainVars d <;> rfl

theorem bitnami.SealService.openCertHTTP_returns (w : World) (s : bitnami.SealService)
    (c : RestConfig) (ns name : Bytes) :
    M.Returns (s.openCertHTTP w c ns name)
      (w.ProxyGet c ns name (str "/v1/cert.pem")).toOption := by
  unfold bitnami.SealService.openCertHTTP
  refine M.returns_emit _ ?_
  cases w.ProxyGet c ns name (str "/v1/cert.pem") with
  | error err => exact M.returns_fail _
  | ok f => exact M.returns_pure _

theorem bitnami.SealService.openCert_returns (w : World) (s : bitnami.SealService)
    (certFilePath kubeconfig : Bytes) :
    M.Returns (s.openCert w certFilePath kubeconfig)
      (spec.certificate w s certFilePath kubeconfig) := by
  unfold bitnami.SealService.openCert spec.certificate
  split_ifs
  · exact os.Open_returns _ _
  · refine M.returns_emit _ ?_
    cases w.ClientConfig kubeconfig with
    | error err => exact M.returns_fail _
    | ok conf =>
      refine M.returns_emit _ ?_
      show M.Returns _
        ((w.NewForConfig { conf with AcceptContentTypes := str "application/x-pem-file, */*" }).toOption.bind
          fun client =>
            (w.ProxyGet client s.controllerNs s.controllerName (str "/v1/cert.pem")).toOption)
      cases w.NewForConfig { conf with AcceptContentTypes := str "application/x-pem-file, */*" } with
      | error err => exact M.returns_fail _
      | ok client => exact bitnami.SealService.openCertHTTP_returns _ _ _ _ _

theorem bitnami.parseKey_returns (w : World) (r : Reader) :
    M.Returns (bitnami.parseKey w r) (spec.publicKey w r) := by
  unfold bitnami.parseKey spec.publicKey
  refine M.returns_bind (ioutil.ReadAll_returns _) (fun data => ?_)
  refine M.returns_emit _ ?_
  refine M.returns_bind (M.returns_ofExcept _) (fun certs => ?_)
  cases certs with
  | nil => exact M.returns_fail _
  | cons c rest =>
    show M.Returns
      (match c.PublicKey with
        | PublicKey.rsa k => pure k
        | PublicKey.other rendering =>
          M.fail (fmt.Errorf (str "Expected RSA public key but found ") rendering))
      (match c.PublicKey with
        | PublicKey.rsa k => some k
        | PublicKey.other _ => none)
    cases c.PublicKey with
    | rsa k => exact M.returns_pure _
    | other rendering => exact M.returns_fail _

theorem bitnami.SealService.sealedSecretOutput.contentType_returns (w : World)
    (s : bitnami.SealService) :
    M.Returns (bitnami.SealService.sealedSecretOutput.contentType w s) (spec.mediaType w s) := by
  unfold bitnami.SealService.sealedSecretOutput.contentType spec.mediaType
  split_ifs <;> first | exact M.returns_pure _ | exact M.returns_fail _

theorem bitnami.SealService.prettyEncoder_returns (w : World) (s : bitnami.SealService)
    (mediaType : Bytes) :
    M.Returns (s.prettyEncoder w mediaType)
      ((runtime.SerializerInfoForMediaType w.SupportedMediaTypes mediaType).bind fun info =>
        some (w.EncoderForVersion
          (match info.PrettySerializer with
            | some e => e
            | none => info.Serializer))) := by
  unfold bitnami.SealService.prettyEncoder
  refine M.returns_emit _ ?_
  cases runtime.SerializerInfoForMediaType w.SupportedMediaTypes mediaType with
  | none => exact M.returns_fail _
  | some info => exact M.returns_pure _

/-! ## All or nothing -/

theorem M.yields_fail (e : GoError) : M.Yields (M.fail e) none :=
  fun _ => ⟨rfl, rfl⟩

theorem bitnami.allOrNothing_from {st s1 : St} {v : Option Bytes}
    {res : Except GoError Unit × St} (ho : s1.out = st.out)
    (h : bitnami.allOrNothing s1 v res) : bitnami.allOrNothing st v res := by
  unfold bitnami.allOrNothing at h ⊢
  rw [ho] at h
  exact h

theorem M.yields_congr {m : M Unit} {v u : Option Bytes} (hm : M.Yields m v) (h : v = u) :
    M.Yields m u :=
  h ▸ hm

theorem M.yields_bind {α : Type} {m : M α} {f : α → M Unit} {v : Option α}
    {g : α → Option Bytes} (hm : M.Returns m v) (hf : ∀ a, M.Yields (f a) (g a)) :
    M.Yields (m >>= f) (v.bind g) := by
  intro st
  obtain ⟨hv, ho⟩ := hm st
  rw [M.bind_eq]
  rcases hms : m st with ⟨r, s1⟩
  rw [hms] at hv ho
  simp only at hv ho
  cases r with
  | error e =>
    have hv : v = none := hv.symm
    subst hv
    exact ⟨rfl, ho⟩
  | ok a =>
    have hv : v = some a := hv.symm
    subst hv
    exact bitnami.allOrNothing_from ho (hf a s1)

theorem M.yields_try {α : Type} {m : M α} {f : Except GoError α → M Unit} {v : Option α}
    {g : α → Option Bytes} (hm : M.Returns m v)
    (herr : ∀ e, M.Yields (f (Except.error e)) none)
    (hok : ∀ a, M.Yields (f (Except.ok a)) (g a)) :
    M.Yields (M.try m >>= f) (v.bind g) := by
  intro st
  obtain ⟨hv, ho⟩ := hm st
  rw [M.bind_eq]
  rcases hms : m st with ⟨r, s1⟩
  rw [hms] at hv ho
  simp only at hv ho
  simp only [M.try, hms]
  cases r with
  | error e =>
    have hv : v = none := hv.symm
    subst hv
    exact bitnami.allOrNothing_from ho (herr e s1)
  | ok a =>
    have hv : v = some a := hv.symm
    subst hv
    exact bitnami.allOrNothing_from ho (hok a s1)

theorem M.yields_emit {m : M Unit} {v : Option Bytes} (ev : Event) (hm : M.Yields m v) :
    M.Yields (M.emit ev >>= fun _ => m) v := by
  intro st
  exact hm { st with log := st.log ++ [ev] }

theorem M.yields_wrap {m : M Unit} {f : Except GoError Unit → M Unit} {v : Option Bytes}
    (hm : M.Yields m v) (herr : ∀ e, ∃ e2, f (Except.error e) = M.fail e2)
    (hok : ∀ u, f (Except.ok u) = pure ()) : M.Yields (M.try m >>= f) v := by
  intro st
  have h := hm st
  rw [M.bind_eq]
  rcases hms : m st with ⟨r, s1⟩
  rw [hms] at h
  simp only [M.try, hms]
  cases r with
  | error e =>
    obtain ⟨e2, he2⟩ := herr e
    rw [he2]
    exact h
  | ok u =>
    rw [hok u]
    exact h

theorem bitnami.SealService.sealedSecretOutput_yields (w : World) (s : bitnami.SealService)
    (ssecret : SealedSecret) :
    M.Yields (s.sealedSecretOutput w ssecret) (spec.encode w s ssecret) := by
  unfold bitnami.SealService.sealedSecretOutput
  refine M.yields_congr
    (M.yields_bind (bitnami.SealService.sealedSecretOutput.contentType_returns w s)
      (fun ct => M.yields_bind (bitnami.SealService.prettyEncoder_returns w s ct)
        (g := fun enc => (enc.Encode ssecret).toOption) (fun enc => ?_))) ?_
  · intro st
    simp only [M.bind_eq, M.try, runtime.Encode_eq]
    cases hb : enc.Encode ssecret with
    | error err => exact ⟨rfl, rfl⟩
    | ok buf => exact ⟨buf, rfl, rfl⟩
  · unfold spec.encode spec.encoder
    cases spec.mediaType w s with
    | none => rfl
    | some ct =>
      simp only [Option.some_bind]

theorem bitnami.SealService.seal_yields (w : World) (s : bitnami.SealService)
    (secret : Secret) (certFilePath kubeconfig : Bytes) :
    M.Yields (s.seal w secret certFilePath kubeconfig)
      (spec.encoded w s secret certFilePath kubeconfig) := by
  unfold bitnami.SealService.seal
  refine M.yields_congr
    (M.yields_try (bitnami.SealService.openCert_returns w s certFilePath kubeconfig)
      (fun _ => M.yields_fail _)
      (fun f => M.yields_try (bitnami.parseKey_returns w f) (fun _ => M.yields_fail _)
        (g := fun pubKey =>
          (w.NewSealedSecret pubKey (bitnami.SealService.seal.strip secret)).toOption.bind
            fun ssecret => spec.encode w s ssecret)
        (fun pubKey => M.yields_emit _ ?_))) ?_
  · beta_reduce
    cases w.NewSealedSecret pubKey (bitnami.SealService.seal.strip secret) with
    | error err => exact M.yields_fail _
    | ok ssecret =>
      exact M.yields_wrap (bitnami.SealService.sealedSecretOutput_yields w s ssecret)
        (fun _ => ⟨_, rfl⟩) (fun _ => rfl)
  · unfold spec.encoded spec.artifact
    cases spec.certificate w s certFilePath kubeconfig with
    | none => rfl
    | some f =>
      simp only [Option.some_bind]
      cases spec.publicKey w f <;> rfl

theorem bitnami.SealService.SealOpaque_yields (w : World) (s : bitnami.SealService)
    (cluster name ns : Bytes) (data : List (Bytes × Bytes)) :
    M.Yields (s.SealOpaque w cluster name ns data) (spec.SealOpaque w s cluster name ns data) := by
  unfold bitnami.SealService.SealOpaque
  refine M.yields_congr
    (M.yields_bind (sealer.CertFilePath_returns w cluster) (fun certFilePath =>
      M.yields_bind (sealer.KubeconfigFile_returns w cluster) (fun kubeconfig =>
        bitnami.SealService.seal_yields w s _ certFilePath kubeconfig))) ?_
  unfold spec.SealOpaque
  cases spec.clusterVars cluster <;> rfl

theorem bitnami.SealService.SealDockerconfigjson_yields (w : World) (s : bitnami.SealService)
    (cluster name ns username password : Bytes) :
    M.Yields (s.SealDockerconfigjson w cluster name ns username password)
      (spec.SealDockerconfigjson w s cluster name ns username password) := by
  unfold bitnami.SealService.SealDockerconfigjson
  refine M.yields_congr
    (M.yields_bind (sealer.CertFilePath_returns w cluster) (fun certFilePath =>
      M.yields_bind (sealer.KubeconfigFile_returns w cluster) (fun kubeconfig =>
        bitnami.SealService.seal_yields w s _ certFilePath kubeconfig))) ?_
  unfold spec.SealDockerconfigjson
  cases spec.clusterVars cluster <;> rfl

theorem bitnami.SealService.SealTLS_yields (w : World) (s : bitnami.SealService)
    (cluster ns domain : Bytes) :
    M.Yields (s.SealTLS w cluster ns domain) (spec.SealTLS w s cluster ns domain) := by
  unfold bitnami.SealService.SealTLS
  refine M.yields_congr
    (M.yields_bind (sealer.CertFilePath_returns w cluster) (fun certFilePath =>
      M.yields_bind (sealer.KubeconfigFile_returns w cluster) (fun kubeconfig =>
        M.yields_bind (sealer.GetTLS_returns w domain) (fun ck =>
          bitnami.SealService.seal_yields w s
            (sealer.CreateSecret (domain ++ str "-tls") ns v1.SecretTypeTLS
              [(v1.TLSCertKey, ck.1), (v1.TLSPrivateKeyKey, ck.2)])
            certFilePath kubeconfig)))) ?_
  unfold spec.SealTLS
  cases spec.clusterVars cluster <;> rfl

/-- C8. For every call of SealOpaque, SealDockerconfigjson or SealTLS, in every
world and from every state: the call returns an error exactly when some step
of it fails (the cluster or the domain is unknown, a file cannot be read, the
certificate cannot be opened or parsed, the delegate fails, the format is
unsupported, the encoder fails), and then `out` holds exactly what it held
before the call; when it returns nil, `out` has grown by exactly the encoded
artifact followed by one newline byte. The encoded artifact is the one of this
call: the bytes the encoder of the configured format gives for the artifact
the sealing delegate returned for the public key of the cluster's
certificate and the secret built from the request. -/
theorem C8_all_or_nothing (w : World) (s : bitnami.SealService)
    (cluster name ns username password domain : Bytes) (data : List (Bytes × Bytes))
    (st : St) :
    bitnami.allOrNothing st (spec.SealOpaque w s cluster name ns data)
      (s.SealOpaque w cluster name ns data st) ∧
    bitnami.allOrNothing st (spec.SealDockerconfigjson w s cluster name ns username password)
      (s.SealDockerconfigjson w cluster name ns username password st) ∧
    bitnami.allOrNothing st (spec.SealTLS w s cluster ns domain)
      (s.SealTLS w cluster ns domain st) :=
  ⟨bitnami.SealService.SealOpaque_yields w s cluster name ns data st,
   bitnami.SealService.SealDockerconfigjson_yields w s cluster name ns username password st,
   bitnami.SealService.SealTLS_yields w s cluster ns domain st⟩

/-- On the concrete world the encoded artifact of an opaque secret for `dev` is
the pretty JSON encoding of the secret's artifact; there is none for an
unknown cluster. -/
theorem example.SealOpaque_encoded :
    spec.SealOpaque example.world (bitnami.NewSealService [] [] [] []) (str "dev") (str "s1")
        (str "default") [(str "k", str "test")] = some (str "pretty-json:s1") ∧
    spec.SealOpaque example.world (bitnami.NewSealService [] [] [] []) (str "prod") (str "s1")
        (str "default") [] = none := by
  constructor <;> rfl
/-- On the concrete world, sealing an opaque secret for `dev` succeeds and
writes the encoding followed by a newline; for an unknown cluster it fails and
writes nothing. -/
theorem example.SealOpaque_runs :
    (bitnami.NewSealService [] [] [] []).SealOpaque example.world (str "dev") (str "s1")
        (str "default") [(str "k", str "test")] St.init
      = (Except.ok (),
          { out := str "pretty-json:s1\n",
            log := [Event.Getenv (str "DEV_CERT_FILE"), Event.Getenv (str "DEV_KUBECONFIG_FILE"),
              Event.Open (str "/certs/dev.pem"), Event.ReadAll, Event.ParseCertsPEM (str "PEM"),
              Event.NewSealedSecret { N := 3233, E := 17 }
                (sealer.CreateSecret (str "s1") (str "default") v1.SecretTypeOpaque
                  [(str "k", str "test")]),
              Event.SerializerInfoForMediaType (str "application/json"),
              Event.Encode { Name := str "s1", Namespace := str "default",
                             EncryptedData := [(str "k", str "test")] }] }) ∧
    (bitnami.NewSealService [] [] [] []).SealOpaque example.world (str "prod") (str "s1")
        (str "default") [] St.init
      = (Except.error (str "Invalid cluster: prod"), St.init) := by
  constructor <;> rfl

/-- C9 (as stated) fails: a request with an empty name and an empty namespace
reaches the sealing delegate unchanged. -/
theorem C9_counterexample :
    Event.NewSealedSecret { N := 3233, E := 17 }
        (sealer.CreateSecret [] [] v1.SecretTypeOpaque []) ∈
      ((bitnami.NewSealService [] [] [] []).SealOpaque example.world (str "dev") [] [] []
        St.init).2.log ∧
    (sealer.CreateSecret [] [] v1.SecretTypeOpaque []).Name = [] ∧
    (sealer.CreateSecret [] [] v1.SecretTypeOpaque []).Namespace = [] := by
  decide

/-- C9 (amended). Every Secret a call of SealOpaque, SealDockerconfigjson or
SealTLS hands to the sealing delegate carries exactly the name and namespace
of the request (for SealTLS the name is the domain followed by "-tls", which
is never empty); so it has a non-empty name and namespace whenever the
request has. No step rejects an empty name or namespace. -/
theorem C9_delegate_gets_request_names (w : World) (s : bitnami.SealService)
    (cluster name ns username password domain : Bytes) (data : List (Bytes × Bytes))
    (st : St) :
    (∀ pk sec, Event.NewSealedSecret pk sec ∈
        (s.SealOpaque w cluster name ns data st).2.log.drop st.log.length →
      sec.Name = name ∧ sec.Namespace = ns ∧
      (name ≠ [] → ns ≠ [] → sec.Name ≠ [] ∧ sec.Namespace ≠ [])) ∧
    (∀ pk sec, Event.NewSealedSecret pk sec ∈
        (s.SealDockerconfigjson w cluster name ns username password st).2.log.drop
          st.log.length →
      sec.Name = name ∧ sec.Namespace = ns ∧
      (name ≠ [] → ns ≠ [] → sec.Name ≠ [] ∧ sec.Namespace ≠ [])) ∧
    (∀ pk sec, Event.NewSealedSecret pk sec ∈
        (s.SealTLS w cluster ns domain st).2.log.drop st.log.length →
      sec.Name = domain ++ str "-tls" ∧ sec.Namespace = ns ∧ sec.Name ≠ [] ∧
      (ns ≠ [] → sec.Namespace ≠ [])) := by
  refine ⟨?_, ?_, ?_⟩
  · intro pk sec hmem
    obtain ⟨evs, hl, he⟩ := bitnami.SealService.SealOpaque_sealing w s cluster name ns data st
    rw [hl, List.drop_left] at hmem
    have h := he pk sec hmem
    subst h
    exact ⟨rfl, rfl, fun h1 h2 => ⟨h1, h2⟩⟩
  · intro pk sec hmem
    obtain ⟨evs, hl, he⟩ :=
      bitnami.SealService.SealDockerconfigjson_sealing w s cluster name ns username password st
    rw [hl, List.drop_left] at hmem
    have h := he pk sec hmem
    subst h
    exact ⟨rfl, rfl, fun h1 h2 => ⟨h1, h2⟩⟩
  · intro pk sec hmem
    obtain ⟨evs, hl, he⟩ := bitnami.SealService.SealTLS_sealing w s cluster ns domain st
    rw [hl, List.drop_left] at hmem
    obtain ⟨cert, key, h⟩ := he pk sec hmem
    subst h
    refine ⟨rfl, rfl, ?_, fun h2 => h2⟩
    show domain ++ str "-tls" ≠ []
    intro h
    have := congrArg List.length h
    simp [str, utf8] at this

/-- C10. CreateSecret returns a descriptor whose name, namespace, type and
payload are exactly its arguments and whose server-populated metadata fields
are all empty; building it twice from the same request gives equal
descriptors (of type "Opaque" for an opaque request); the stripping done in
seal leaves name, namespace, type and payload of any secret unchanged, and
leaves a freshly created descriptor unchanged altogether, so that the secret
SealOpaque hands to the sealing delegate is the descriptor built from the
request. -/
theorem C10_CreateSecret_fields (name ns typ : Bytes) (data : List (Bytes × Bytes))
    (secret : Secret) :
    (sealer.CreateSecret name ns typ data).Name = name ∧
    (sealer.CreateSecret name ns typ data).Namespace = ns ∧
    (sealer.CreateSecret name ns typ data).Type_ = typ ∧
    (sealer.CreateSecret name ns typ data).Data = data ∧
    (sealer.CreateSecret name ns typ data).SelfLink = [] ∧
    (sealer.CreateSecret name ns typ data).UID = [] ∧
    (sealer.CreateSecret name ns typ data).ResourceVersion = [] ∧
    (sealer.CreateSecret name ns typ data).Generation = 0 ∧
    (sealer.CreateSecret name ns typ data).CreationTimestamp = none ∧
    (sealer.CreateSecret name ns typ data).DeletionTimestamp = none ∧
    (sealer.CreateSecret name ns typ data).DeletionGracePeriodSeconds = none ∧
    sealer.CreateSecret name ns v1.SecretTypeOpaque data
      = sealer.CreateSecret name ns v1.SecretTypeOpaque data ∧
    (sealer.CreateSecret name ns v1.SecretTypeOpaque data).Type_ = str "Opaque" ∧
    (bitnami.SealService.seal.strip secret).Name = secret.Name ∧
    (bitnami.SealService.seal.strip secret).Namespace = secret.Namespace ∧
    (bitnami.SealService.seal.strip secret).Type_ = secret.Type_ ∧
    (bitnami.SealService.seal.strip secret).Data = secret.Data ∧
    bitnami.SealService.seal.strip (sealer.CreateSecret name ns typ data)
      = sealer.CreateSecret name ns typ data ∧
    (∀ (w : World) (s : bitnami.SealService) (cluster : Bytes) (st : St)
        (pk : RSAPublicKey) (sec : Secret),
      Event.NewSealedSecret pk sec ∈
        (s.SealOpaque w cluster name ns data st).2.log.drop st.log.length →
      sec = sealer.CreateSecret name ns v1.SecretTypeOpaque data) := by
  refine ⟨rfl, rfl, rfl, rfl, rfl, rfl, rfl, rfl, rfl, rfl, rfl, rfl, rfl, rfl, rfl, rfl, rfl,
    rfl, ?_⟩
  intro w s cluster st pk sec hmem
  obtain ⟨evs, hl, he⟩ := bitnami.SealService.SealOpaque_sealing w s cluster name ns data st
  rw [hl, List.drop_left] at hmem
  exact he pk sec hmem

/-! ## The output format -/

theorem bitnami.SealService.prettyEncoder_log (w : World) (s : bitnami.SealService)
    (mediaType : Bytes) (st : St) :
    (s.prettyEncoder w mediaType st).2
      = { st with log := st.log ++ [Event.SerializerInfoForMediaType mediaType] } := by
  unfold bitnami.SealService.prettyEncoder
  simp only [M.bind_eq, M.emit]
  cases runtime.SerializerInfoForMediaType w.SupportedMediaTypes mediaType <;> rfl

theorem bitnami.SealService.sealedSecretOutput_selects (w : World) (s : bitnami.SealService)
    (ssecret : SealedSecret) (st : St) (ct : Bytes)
    (hct : bitnami.SealService.sealedSecretOutput.contentType w s st = (Except.ok ct, st)) :
    ((s.sealedSecretOutput w ssecret st).2.log.drop st.log.length).head?
      = some (Event.SerializerInfoForMediaType ct) := by
  unfold bitnami.SealService.sealedSecretOutput
  rw [M.bind_eq, hct]
  simp only
  rw [M.bind_eq]
  have hl := bitnami.SealService.prettyEncoder_log w s ct st
  rcases hp : s.prettyEncoder w ct st with ⟨r, s1⟩
  rw [hp] at hl
  simp only at hl
  subst hl
  cases r with
  | error e => simp
  | ok enc =>
    simp only [M.bind_eq, M.try, runtime.Encode_eq]
    cases enc.Encode ssecret <;> simp [M.fail, M.Write, M.bind_eq]

theorem bitnami.SealService.sealedSecretOutput_rejects (w : World) (s : bitnami.SealService)
    (ssecret : SealedSecret) (st : St) (e : GoError)
    (hct : bitnami.SealService.sealedSecretOutput.contentType w s st = (Except.error e, st)) :
    s.sealedSecretOutput w ssecret st = (Except.error e, st) := by
  unfold bitnami.SealService.sealedSecretOutput
  rw [M.bind_eq, hct]

/-- C7 (as stated) fails: the format "YAML" is none of "json", "", "yaml", yet
the encoder does not fail on it: it selects YAML and writes the artifact. -/
theorem C7_counterexample :
    str "YAML" ∉ [str "json", str "", str "yaml"] ∧
    (bitnami.NewSealService (str "YAML") [] [] []).sealedSecretOutput example.world
        { Name := str "s1", Namespace := str "default", EncryptedData := [] } St.init
      = (Except.ok (),
          { out := str "yaml:s1\n",
            log := [Event.SerializerInfoForMediaType (str "application/yaml"),
              Event.Encode { Name := str "s1", Namespace := str "default",
                             EncryptedData := [] }] }) := by
  constructor
  · decide
  · rfl

/-- C7 (amended). Let `s` be the service built by NewSealService with format
`f`, and `lower` be `strings.ToLower` of its format. An empty `f` is replaced
by "json". If `lower` is "json" or empty the encoder asks the codecs for
"application/json"; if `lower` is "yaml" it asks for "application/yaml"; for
any other `lower` it fails with "unsupported output format: " followed by the
format, writing nothing and calling nothing. On a format of ASCII bytes
`lower` is the format with `A`..`Z` replaced by `a`..`z`, so "YAML" and
"Json" are accepted as well. -/
theorem C7_output_format (w : World) (f cns cname host : Bytes) (ssecret : SealedSecret)
    (st : St) :
    (f = [] → (bitnami.NewSealService f cns cname host).outputFormat = str "json") ∧
    (f ≠ [] → (bitnami.NewSealService f cns cname host).outputFormat = f) ∧
    ((∀ b ∈ f, b < 128) →
      strings.ToLower w.mapLower (bitnami.NewSealService f cns cname host).outputFormat
        = ((bitnami.NewSealService f cns cname host).outputFormat).map strings.lowerASCII) ∧
    (strings.ToLower w.mapLower (bitnami.NewSealService f cns cname host).outputFormat
          = str "json" ∨
        strings.ToLower w.mapLower (bitnami.NewSealService f cns cname host).outputFormat
          = str "" →
      (((bitnami.NewSealService f cns cname host).sealedSecretOutput w ssecret st).2.log.drop
          st.log.length).head?
        = some (Event.SerializerInfoForMediaType (str "application/json"))) ∧
    (strings.ToLower w.mapLower (bitnami.NewSealService f cns cname host).outputFormat
          = str "yaml" →
      (((bitnami.NewSealService f cns cname host).sealedSecretOutput w ssecret st).2.log.drop
          st.log.length).head?
        = some (Event.SerializerInfoForMediaType (str "application/yaml"))) ∧
    (strings.ToLower w.mapLower (bitnami.NewSealService f cns cname host).outputFormat
          ∉ [str "json", str "", str "yaml"] →
      (bitnami.NewSealService f cns cname host).sealedSecretOutput w ssecret st
        = (Except.error (str "unsupported output format: " ++
            (bitnami.NewSealService f cns cname host).outputFormat), st)) := by
  refine ⟨?_, ?_, ?_, ?_, ?_, ?_⟩
  · intro h
    simp [bitnami.NewSealService, h]
  · intro h
    simp [bitnami.NewSealService, h]
  · intro h
    have hall : ∀ b ∈ (bitnami.NewSealService f cns cname host).outputFormat, b < 128 := by
      by_cases hf : f = []
      · simp only [bitnami.NewSealService, hf, if_true]
        decide
      · simpa [bitnami.NewSealService, hf] using h
    unfold strings.ToLower
    rw [if_pos]
    simpa [List.all_eq_true] using hall
  · intro h
    apply bitnami.SealService.sealedSecretOutput_selects
    unfold bitnami.SealService.sealedSecretOutput.contentType
    rw [if_pos h]
    rfl
  · intro h
    apply bitnami.SealService.sealedSecretOutput_selects
    unfold bitnami.SealService.sealedSecretOutput.contentType
    have hne : ¬ (str "yaml" = str "json" ∨ str "yaml" = str "") := by decide
    rw [h, if_neg hne, if_pos rfl]
    rfl
  · intro h
    simp only [List.mem_cons, List.mem_singleton, List.not_mem_nil, or_false, not_or] at h
    apply bitnami.SealService.sealedSecretOutput_rejects
    unfold bitnami.SealService.sealedSecretOutput.contentType
    rw [if_neg (by tauto), if_neg h.2.2]
    rfl

/-! ## The HTTP handlers -/

theorem rest.sealResponse.foldl_Write (writes : List Bytes) (acc : rest.sealResponse) :
    writes.foldl rest.sealResponse.Write acc
      = { acc with SealedSecret := acc.SealedSecret ++ writes.flatten } := by
  induction writes generalizing acc with
  | nil => simp
  | cons p ps ih => simp [ih, rest.sealResponse.Write, List.append_assoc]

theorem rest.sealResponse.collect_eq (writes : List Bytes) :
    rest.sealResponse.collect writes = { SealedSecret := writes.flatten, Err := [] } := by
  unfold rest.sealResponse.collect
  rw [rest.sealResponse.foldl_Write]
  simp

theorem rest.Error_spec (c : Conn) (err : GoError) (code : Nat) (hc : c.status = none)
    (he : (if code = 500 then sealer.ErrInternal else err) ≠ []) :
    rest.Error c err code =
      { c with
        status := some code
        body := c.body ++
          [Chunk.json [(str "err",
            JSONValue.string (if code = 500 then sealer.ErrInternal else err))]]
        printed := c.printed ++ [(err, code)] } := by
  unfold rest.Error json.Encode Conn.Write Conn.WriteHeader rest.errorResponse.marshal
  simp only [http.StatusInternalServerError, hc, if_neg he]

theorem rest.encodeJSON_spec (c : Conn) (v : JSONObject) (hc : c.status = none) :
    rest.encodeJSON c v = { c with status := some 200, body := c.body ++ [Chunk.json v] } := by
  unfold rest.encodeJSON json.Encode Conn.Write Conn.WriteHeader
  simp only [hc]

theorem rest.sealResponse.marshal_spec (b : Bytes) :
    List.lookup (str "err") (rest.sealResponse.marshal { SealedSecret := b, Err := [] }) = none ∧
    JSONObject.sealedSecret (rest.sealResponse.marshal { SealedSecret := b, Err := [] }) = b := by
  unfold rest.sealResponse.marshal JSONObject.sealedSecret
  by_cases hb : b = []
  · subst hb
    simp
  · have h1 : (str "err" == str "sealedSecret") = false := by decide
    have h2 : (str "sealedSecret" == str "sealedSecret") = true := by decide
    simp [hb, List.lookup, h1, h2]

theorem rest.handlerSpec_error {α : Type} (err : GoError) (call : α → Call)
    (run : α → List Bytes × Option GoError) (c : Conn) (hc : c.status = none)
    (hne : err ≠ []) :
    rest.handlerSpec (Except.error err) call run c (rest.Error c err http.StatusForbidden) := by
  have hne2 : (if http.StatusForbidden = 500 then sealer.ErrInternal else err) ≠ [] := by
    rw [if_neg (by decide)]
    exact hne
  unfold rest.handlerSpec
  simp only
  rw [rest.Error_spec c err _ hc hne2, if_neg (by decide)]
  exact ⟨rfl, rfl, rfl⟩

theorem rest.handlerSpec_ok {α : Type} (req : α) (call : α → Call)
    (run : α → List Bytes × Option GoError) (c : Conn) (hc : c.status = none) :
    rest.handlerSpec (Except.ok req) call run c
      (match run req with
        | (_, some err) =>
          rest.Error { c with calls := c.calls ++ [call req] } err
            http.StatusInternalServerError
        | (writes, none) =>
          rest.encodeJSON { c with calls := c.calls ++ [call req] }
            (rest.sealResponse.collect writes).marshal) := by
  unfold rest.handlerSpec
  simp only
  rcases hr : run req with ⟨writes, err⟩
  cases err with
  | some e =>
    have hne : (if http.StatusInternalServerError = 500 then sealer.ErrInternal else e)
        ≠ [] := by
      rw [if_pos (show http.StatusInternalServerError = 500 from rfl)]
      decide
    simp only
    rw [rest.Error_spec _ e _ (by exact hc) hne,
      if_pos (show http.StatusInternalServerError = 500 from rfl)]
    exact ⟨rfl, rfl, rfl⟩
  | none =>
    simp only
    rw [rest.encodeJSON_spec _ _ (by exact hc), rest.sealResponse.collect_eq]
    exact ⟨rfl, rfl, rfl, _, rfl, rest.sealResponse.marshal_spec _⟩

/-- C5. For each of the three seal handlers and every request arriving on a
response on which no status has been written yet, where the JSON decoder (as
encoding/json does) gives every error a non-empty message: if the body does
not decode, the status is 403, the seal service is not called and the body is
a JSON object whose `err` field is the decoder's message; if the body decodes
and the service returns an error, the service was called once with the decoded
fields, the status is 500 and `err` is exactly "internal error" whatever the
error was; if the service succeeds, the status is the 200 sent by the first
write, nothing is reported as an error and `sealedSecret` is exactly the bytes
the service wrote, in order. -/
theorem C5_seal_handlers (d : json.Decoder) (h : rest.SealHandler) (c : Conn) (r : Request)
    (hc : c.status = none)
    (hd : ∀ e, (d.sealOpaqueRequest r.Body = Except.error e ∨
        d.sealDockerconfigjsonRequest r.Body = Except.error e ∨
        d.sealTLSRequest r.Body = Except.error e) → e ≠ []) :
    rest.handlerSpec (d.sealOpaqueRequest r.Body)
      (fun req => Call.SealOpaque req.Cluster req.Name req.Namespace req.Data)
      (fun req => h.SealService.SealOpaque req.Cluster req.Name req.Namespace req.Data)
      c (h.handleSealOpaque d c r) ∧
    rest.handlerSpec (d.sealDockerconfigjsonRequest r.Body)
      (fun req => Call.SealDockerconfigjson req.Cluster req.Name req.Namespace
        req.Username req.Password)
      (fun req => h.SealService.SealDockerconfigjson req.Cluster req.Name req.Namespace
        req.Username req.Password)
      c (h.handleSealDockerconfigjson d c r) ∧
    rest.handlerSpec (d.sealTLSRequest r.Body)
      (fun req => Call.SealTLS req.Cluster req.Namespace req.Domain)
      (fun req => h.SealService.SealTLS req.Cluster req.Namespace req.Domain)
      c (h.handleSealTLS d c r) := by
  refine ⟨?_, ?_, ?_⟩
  · unfold rest.SealHandler.handleSealOpaque
    cases hdec : d.sealOpaqueRequest r.Body with
    | error err => exact rest.handlerSpec_error err _ _ c hc (hd err (Or.inl hdec))
    | ok req => exact rest.handlerSpec_ok req _ _ c hc
  · unfold rest.SealHandler.handleSealDockerconfigjson
    cases hdec : d.sealDockerconfigjsonRequest r.Body with
    | error err => exact rest.handlerSpec_error err _ _ c hc (hd err (Or.inr (Or.inl hdec)))
    | ok req => exact rest.handlerSpec_ok req _ _ c hc
  · unfold rest.SealHandler.handleSealTLS
    cases hdec : d.sealTLSRequest r.Body with
    | error err => exact rest.handlerSpec_error err _ _ c hc (hd err (Or.inr (Or.inr hdec)))
    | ok req => exact rest.handlerSpec_ok req _ _ c hc

theorem example.decoder_errors (body e : Bytes)
    (h : example.decoder.sealOpaqueRequest body = Except.error e ∨
      example.decoder.sealDockerconfigjsonRequest body = Except.error e ∨
      example.decoder.sealTLSRequest body = Except.error e) : e ≠ [] := by
  have hne : str "unexpected end of JSON input" ≠ [] := by decide
  unfold example.decoder at h
  simp only at h
  rcases h with h | h | h
  · split_ifs at h
    cases h
    exact hne
  · split_ifs at h
    cases h
    exact hne
  · split_ifs at h
    cases h
    exact hne

/-- C5 at a concrete request: a body that does not decode, on a fresh
response. -/
theorem C5_witness :
    Conn.fresh.status = none ∧
    (rest.handlerSpec (example.decoder.sealOpaqueRequest (example.post [] (str "bad")).Body)
      (fun req => Call.SealOpaque req.Cluster req.Name req.Namespace req.Data)
      (fun req => example.handler.SealService.SealOpaque req.Cluster req.Name req.Namespace
        req.Data)
      Conn.fresh (example.handler.handleSealOpaque example.decoder Conn.fresh
        (example.post [] (str "bad"))) ∧
    rest.handlerSpec
      (example.decoder.sealDockerconfigjsonRequest (example.post [] (str "bad")).Body)
      (fun req => Call.SealDockerconfigjson req.Cluster req.Name req.Namespace
        req.Username req.Password)
      (fun req => example.handler.SealService.SealDockerconfigjson req.Cluster req.Name
        req.Namespace req.Username req.Password)
      Conn.fresh (example.handler.handleSealDockerconfigjson example.decoder Conn.fresh
        (example.post [] (str "bad"))) ∧
    rest.handlerSpec (example.decoder.sealTLSRequest (example.post [] (str "bad")).Body)
      (fun req => Call.SealTLS req.Cluster req.Namespace req.Domain)
      (fun req => example.handler.SealService.SealTLS req.Cluster req.Namespace req.Domain)
      Conn.fresh (example.handler.handleSealTLS example.decoder Conn.fresh
        (example.post [] (str "bad")))) :=
  ⟨rfl, C5_seal_handlers example.decoder example.handler Conn.fresh
    (example.post [] (str "bad")) rfl (example.decoder_errors _)⟩

/-- The three outcomes of handleSealOpaque on concrete requests: a body that
does not decode, a request the service rejects, a request it seals. -/
theorem example.handleSealOpaque_runs :
    example.handler.handleSealOpaque example.decoder Conn.fresh (example.post [] (str "bad"))
      = { header := [], status := some 403,
          body := [Chunk.json [(str "err", JSONValue.string
            (str "unexpected end of JSON input"))]],
          printed := [(str "unexpected end of JSON input", 403)], calls := [] } ∧
    example.handler.handleSealOpaque example.decoder Conn.fresh (example.post [] (str "prod"))
      = { header := [], status := some 500,
          body := [Chunk.json [(str "err", JSONValue.string (str "internal error"))]],
          printed := [(str "Invalid cluster: prod", 500)],
          calls := [Call.SealOpaque (str "prod") (str "s1") (str "default") []] } ∧
    example.handler.handleSealOpaque example.decoder Conn.fresh (example.post [] (str "ok"))
      = { header := [], status := some 200,
          body := [Chunk.json [(str "sealedSecret", JSONValue.bytes (str "sealed:s1\n"))]],
          printed := [],
          calls := [Call.SealOpaque (str "dev") (str "s1") (str "default")
            [(str "k", str "test")]] } := by
  refine ⟨?_, ?_, ?_⟩ <;> rfl

/-! ## Routing -/

theorem rest.routes_have_prefix :
    ∀ route ∈ rest.NewSealHandler.routes, str "/api/seal" <+: route.2 := by
  decide

theorem rest.NewSealHandler_trees (d : json.Decoder) (h : rest.SealHandler) :
    (rest.NewSealHandler d h).trees
      = [(str "POST", [(str "/api/seal/opaque", h.handleSealOpaque d),
          (str "/api/seal/dockerconfigjson", h.handleSealDockerconfigjson d),
          (str "/api/seal/tls", h.handleSealTLS d)])] := rfl

/-- The routes the router of NewSealHandler holds are the three seal routes. -/
theorem rest.NewSealHandler_routes (d : json.Decoder) (h : rest.SealHandler) :
    ((rest.NewSealHandler d h).trees.flatMap fun tree =>
        tree.2.map fun route => (tree.1, route.1))
      = rest.NewSealHandler.routes := rfl

theorem rest.NewSealHandler_flags (d : json.Decoder) (h : rest.SealHandler) :
    (rest.NewSealHandler d h).RedirectTrailingSlash = true ∧
    (rest.NewSealHandler d h).RedirectFixedPath = true ∧
    (rest.NewSealHandler d h).HandleMethodNotAllowed = true ∧
    (rest.NewSealHandler d h).HandleOPTIONS = true := ⟨rfl, rfl, rfl, rfl⟩

theorem rest.sealPaths_lower (mapLower : Bytes → Bytes) :
    strings.ToLower mapLower (str "/api/seal/opaque") = str "/api/seal/opaque" ∧
    strings.ToLower mapLower (str "/api/seal/dockerconfigjson")
      = str "/api/seal/dockerconfigjson" ∧
    strings.ToLower mapLower (str "/api/seal/tls") = str "/api/seal/tls" := ⟨rfl, rfl, rfl⟩

theorem rest.sealPaths_ne {path : Bytes} (hpath : path ∉ rest.sealPaths) :
    path ≠ str "/api/seal/opaque" ∧ path ≠ str "/api/seal/dockerconfigjson" ∧
    path ≠ str "/api/seal/tls" := by
  refine ⟨?_, ?_, ?_⟩ <;>
  · intro h0
    apply hpath
    rw [h0]
    decide

theorem rest.sealPaths_no_slash (path : Bytes) :
    str "/api/seal/opaque" ≠ path ++ str "/" ∧
    str "/api/seal/dockerconfigjson" ≠ path ++ str "/" ∧
    str "/api/seal/tls" ≠ path ++ str "/" := by
  have key : ∀ p : Bytes, p.getLast? ≠ some 47 → p ≠ path ++ str "/" := by
    intro p hp h
    apply hp
    rw [h]
    show (path ++ [47]).getLast? = some 47
    simp
  exact ⟨key _ (by decide), key _ (by decide), key _ (by decide)⟩

theorem httprouter.getValue_seal (d : json.Decoder) (h : rest.SealHandler) (path : Bytes)
    (hpath : path ∉ rest.sealPaths) :
    httprouter.getValue
        [(str "/api/seal/opaque", h.handleSealOpaque d),
          (str "/api/seal/dockerconfigjson", h.handleSealDockerconfigjson d),
          (str "/api/seal/tls", h.handleSealTLS d)] path
      = (none, (rest.sealPaths.find? fun route => route ++ str "/" == path).isSome) := by
  obtain ⟨h1, h2, h3⟩ := rest.sealPaths_ne hpath
  obtain ⟨n1, n2, n3⟩ := rest.sealPaths_no_slash path
  unfold httprouter.getValue
  have e1 : (path == str "/api/seal/opaque") = false := by simpa using h1
  have e2 : (path == str "/api/seal/dockerconfigjson") = false := by simpa using h2
  have e3 : (path == str "/api/seal/tls") = false := by simpa using h3
  have f1 : (str "/api/seal/opaque" == path ++ str "/") = false := by simpa using n1
  have f2 : (str "/api/seal/dockerconfigjson" == path ++ str "/") = false := by simpa using n2
  have f3 : (str "/api/seal/tls" == path ++ str "/") = false := by simpa using n3
  simp only [List.lookup, e1, e2, e3, List.any, f1, f2, f3, Bool.false_or, Bool.or_false]
  show (none, _) = (none, (List.find? _ [str "/api/seal/opaque",
    str "/api/seal/dockerconfigjson", str "/api/seal/tls"]).isSome)
  simp only [List.find?]
  cases (str "/api/seal/opaque" ++ str "/" == path) <;>
    cases (str "/api/seal/dockerconfigjson" ++ str "/" == path) <;>
    cases (str "/api/seal/tls" ++ str "/" == path) <;> rfl

theorem httprouter.findCaseInsensitivePath_seal (mapLower : Bytes → Bytes) (d : json.Decoder)
    (h : rest.SealHandler) (path : Bytes) :
    httprouter.findCaseInsensitivePath mapLower
        [(str "/api/seal/opaque", h.handleSealOpaque d),
          (str "/api/seal/dockerconfigjson", h.handleSealDockerconfigjson d),
          (str "/api/seal/tls", h.handleSealTLS d)] path true
      = (match rest.sealPaths.find? fun route => route == strings.ToLower mapLower path with
        | some route => some route
        | none =>
          if path = str "/" then some []
          else rest.sealPaths.find? fun route =>
            route ++ str "/" == strings.ToLower mapLower path) := by
  obtain ⟨n1, n2, n3⟩ := rest.sealPaths_no_slash (strings.ToLower mapLower path)
  obtain ⟨l1, l2, l3⟩ := rest.sealPaths_lower mapLower
  have f1 : (str "/api/seal/opaque" == strings.ToLower mapLower path ++ str "/") = false := by
    simpa using n1
  have f2 : (str "/api/seal/dockerconfigjson" == strings.ToLower mapLower path ++ str "/")
      = false := by simpa using n2
  have f3 : (str "/api/seal/tls" == strings.ToLower mapLower path ++ str "/") = false := by
    simpa using n3
  unfold httprouter.findCaseInsensitivePath
  show _ = (match List.find? _ [str "/api/seal/opaque", str "/api/seal/dockerconfigjson",
      str "/api/seal/tls"] with
    | some route => some route
    | none => if path = str "/" then some [] else List.find? _ [str "/api/seal/opaque",
        str "/api/seal/dockerconfigjson", str "/api/seal/tls"])
  simp only [List.find?, l1, l2, l3, f1, f2, f3, Bool.or_false, if_true]
  by_cases hroot : path = str "/"
  · simp only [hroot, if_true]
    cases (str "/api/seal/opaque" == strings.ToLower mapLower (str "/")) <;>
      cases (str "/api/seal/dockerconfigjson" == strings.ToLower mapLower (str "/")) <;>
      cases (str "/api/seal/tls" == strings.ToLower mapLower (str "/")) <;> rfl
  · simp only [hroot, if_false]
    cases (str "/api/seal/opaque" == strings.ToLower mapLower path) <;>
      cases (str "/api/seal/dockerconfigjson" == strings.ToLower mapLower path) <;>
      cases (str "/api/seal/tls" == strings.ToLower mapLower path) <;>
      cases (str "/api/seal/opaque" ++ str "/" == strings.ToLower mapLower path) <;>
      cases (str "/api/seal/dockerconfigjson" ++ str "/" == strings.ToLower mapLower path) <;>
      cases (str "/api/seal/tls" ++ str "/" == strings.ToLower mapLower path) <;> rfl

theorem rest.sealPaths_find_slash {path route : Bytes}
    (hf : (rest.sealPaths.find? fun route => route ++ str "/" == path) = some route) :
    path.length > 1 ∧ path.getLast? = some 47 ∧ path.dropLast = route := by
  have h := List.find?_some hf
  have hp : path = route ++ [47] := (beq_iff_eq.1 h).symm
  have hm : route ≠ [] := by
    have hmem := List.mem_of_find?_eq_some hf
    intro h0
    subst h0
    revert hmem
    decide
  subst hp
  refine ⟨?_, by simp, by simp⟩
  have : 0 < route.length := List.length_pos.2 hm
  simp only [List.length_append, List.length_singleton]
  omega

theorem Conn.lookup_SetHeader_self (c : Conn) (key value : Bytes) :
    List.lookup key (c.SetHeader key value).header = some value := by
  unfold Conn.SetHeader
  simp only
  induction c.header with
  | nil => simp [List.lookup]
  | cons kv rest ih =>
    obtain ⟨k, v⟩ := kv
    by_cases hk : k = key
    · subst hk
      simpa [List.filter] using ih
    · have h1 : (k != key) = true := by simpa using hk
      have h2 : (key == k) = false := beq_eq_false_iff_ne.2 (fun hh => hk hh.symm)
      simp only [List.filter, h1, List.cons_append, List.lookup, h2]
      exact ih

theorem Conn.lookup_SetHeader_other (c : Conn) (key key2 value : Bytes) (h : key ≠ key2) :
    List.lookup key (c.SetHeader key2 value).header = List.lookup key c.header := by
  unfold Conn.SetHeader
  simp only
  have h0 : (key == key2) = false := by simpa using h
  induction c.header with
  | nil => simp [List.lookup, h0]
  | cons kv rest ih =>
    obtain ⟨k, v⟩ := kv
    by_cases hk : k = key2
    · subst hk
      simp only [List.filter, bne_self_eq_false, List.lookup, h0]
      exact ih
    · have h1 : (k != key2) = true := by simpa using hk
      simp only [List.filter, h1, List.cons_append, List.lookup]
      cases key == k
      · exact ih
      · rfl

theorem http.NotFound_spec (c : Conn) (hc : c.status = none) :
    (http.NotFound c).status = some 404 ∧
    (http.NotFound c).body = c.body ++ [Chunk.raw (str "404 page not found\n")] ∧
    List.lookup (str "Content-Type") (http.NotFound c).header
      = some (str "text/plain; charset=utf-8") := by
  have hs : ∀ (c : Conn) (k v : Bytes), (c.SetHeader k v).status = c.status := fun _ _ _ => rfl
  have hb : ∀ (c : Conn) (k v : Bytes), (c.SetHeader k v).body = c.body := fun _ _ _ => rfl
  refine ⟨?_, ?_, ?_⟩
  · unfold http.NotFound http.Error Conn.Write Conn.WriteHeader
    simp only [hs, hc]
    rfl
  · unfold http.NotFound http.Error Conn.Write Conn.WriteHeader
    simp only [hs, hb, hc]
    rfl
  · have hh : (http.NotFound c).header
        = ((c.SetHeader (str "Content-Type") (str "text/plain; charset=utf-8")).SetHeader
            (str "X-Content-Type-Options") (str "nosniff")).header := by
      unfold http.NotFound http.Error Conn.Write Conn.WriteHeader
      simp only [hs, hc]
    rw [hh, Conn.lookup_SetHeader_other _ _ _ _ (by decide), Conn.lookup_SetHeader_self]

theorem rest.NewSealHandler_lookup (rev : httprouter.Revision) (mapLower : Bytes → Bytes)
    (d : json.Decoder) (h : rest.SealHandler) (c : Conn) (r : Request)
    (hpath : r.Path ∉ rest.sealPaths)
    (hpre : str "/api/seal" <+: r.Path) :
    (rest.NewSealHandler d h).lookup rev mapLower c r
      = (rest.redirectTarget mapLower r).map fun target =>
          http.Redirect c r target rev.redirectCode := by
  by_cases hm : r.Method = str "POST"
  · have hroot : r.Path ≠ str "/" := by
      intro h0
      rw [h0] at hpre
      revert hpre
      decide
    have hc : r.Method ≠ str "CONNECT" := by rw [hm]; decide
    have hg : r.Method ≠ str "GET" := by rw [hm]; decide
    have hl : (r.Method == str "POST") = true := by simpa using hm
    have hrt : rest.redirectTarget mapLower r
        = (match rest.sealPaths.find? fun route => route ++ str "/" == r.Path with
          | some route => some route
          | none =>
            match rest.sealPaths.find? fun route =>
                route == strings.ToLower mapLower (httprouter.CleanPath r.Path) with
            | some route => some route
            | none =>
              if httprouter.CleanPath r.Path = str "/" then some []
              else
                rest.sealPaths.find? fun route =>
                  route ++ str "/" == strings.ToLower mapLower (httprouter.CleanPath r.Path)) := by
      unfold rest.redirectTarget
      rw [if_pos ⟨hm, hpre⟩]
    rw [hrt]
    unfold httprouter.Router.lookup
    rw [rest.NewSealHandler_trees]
    simp only [List.lookup, hl, httprouter.getValue_seal d h r.Path hpath,
      (rest.NewSealHandler_flags d h).1, (rest.NewSealHandler_flags d h).2.1,
      httprouter.findCaseInsensitivePath_seal, ne_eq, hc, hroot, hg, not_false_eq_true,
      and_self, if_true, and_true]
    cases hf : rest.sealPaths.find? fun route => route ++ str "/" == r.Path with
    | some route =>
      obtain ⟨hlen, hlast, hdrop⟩ := rest.sealPaths_find_slash hf
      simp only [Option.isSome_some, if_true, hlen, hlast, hdrop, and_self, Option.map_some']
    | none =>
      simp only [Option.isSome_none, Bool.false_eq_true, if_false]
      cases rest.sealPaths.find? fun route =>
          route == strings.ToLower mapLower (httprouter.CleanPath r.Path) with
      | some route => rfl
      | none =>
        simp only
        split_ifs
        · rfl
        · cases rest.sealPaths.find? fun route =>
            route ++ str "/" == strings.ToLower mapLower (httprouter.CleanPath r.Path) <;> rfl
  · have hl : (r.Method == str "POST") = false := by simpa using hm
    have hrt : rest.redirectTarget mapLower r = none := by
      unfold rest.redirectTarget
      exact if_neg (fun hh => hm hh.1)
    rw [hrt]
    unfold httprouter.Router.lookup
    rw [rest.NewSealHandler_trees]
    simp only [List.lookup, hl]
    rfl

theorem rest.NewSealHandler_allowed (rev : httprouter.Revision) (d : json.Decoder)
    (h : rest.SealHandler) (path reqMethod : Bytes)
    (hpath : path ∉ rest.sealPaths)
    (hpre : str "/api/seal" <+: path) :
    (rest.NewSealHandler d h).allowed rev path reqMethod = [] := by
  have hstar : path ≠ str "*" := by
    intro h0
    rw [h0] at hpre
    revert hpre
    decide
  unfold httprouter.Router.allowed
  rw [rest.NewSealHandler_trees]
  simp only [if_neg hstar, List.filter, httprouter.getValue_seal d h path hpath,
    Option.isSome_none, Bool.and_false, List.map_nil, if_true]

theorem rest.NewSealHandler_ServeHTTP (rev : httprouter.Revision) (mapLower : Bytes → Bytes)
    (d : json.Decoder) (h : rest.SealHandler) (c : Conn) (r : Request)
    (hpath : r.Path ∉ rest.sealPaths) :
    rest.Handler.ServeHTTP ((rest.NewSealHandler d h).ServeHTTP rev mapLower) c r
      = (match rest.redirectTarget mapLower r with
        | some target => http.Redirect c r target rev.redirectCode
        | none => http.NotFound c) := by
  unfold rest.Handler.ServeHTTP
  by_cases hpre : str "/api/seal" <+: r.Path
  · rw [if_pos ((strings.HasPrefix_iff _ _).2 hpre)]
    unfold httprouter.Router.ServeHTTP
    rw [rest.NewSealHandler_lookup rev mapLower d h c r hpath hpre]
    cases rest.redirectTarget mapLower r with
    | some target => rfl
    | none =>
      simp only [Option.map_none', rest.NewSealHandler_allowed rev d h r.Path _ hpath hpre,
        ne_eq, not_true_eq_false, and_false, if_false, ite_self]
  · rw [if_neg (fun hh => hpre ((strings.HasPrefix_iff _ _).1 hh))]
    have hrt : rest.redirectTarget mapLower r = none := by
      unfold rest.redirectTarget
      exact if_neg (fun hh => hpre hh.2)
    rw [hrt]

theorem http.Redirect_post (c : Conn) (r : Request) (url : Bytes) (code : Nat)
    (hm : r.Method = str "POST") :
    (http.Redirect c r url code).body = c.body ∧
    List.lookup (str "Location") (http.Redirect c r url code).header
      = some (if url = [] then str "/" else url) ∧
    (c.status = none → (http.Redirect c r url code).status = some code) := by
  have hg : r.Method ≠ str "GET" := by rw [hm]; decide
  have hh : r.Method ≠ str "HEAD" := by rw [hm]; decide
  have heq : http.Redirect c r url code
      = (c.SetHeader (str "Location") (if url = [] then str "/" else url)).WriteHeader code := by
    unfold http.Redirect
    simp only [hg, hh, or_self, and_false, if_false]
  rw [heq]
  refine ⟨?_, ?_, ?_⟩
  · unfold Conn.WriteHeader
    cases (c.SetHeader (str "Location") (if url = [] then str "/" else url)).status <;> rfl
  · have : ((c.SetHeader (str "Location") (if url = [] then str "/" else url)).WriteHeader
          code).header
        = (c.SetHeader (str "Location") (if url = [] then str "/" else url)).header := by
      unfold Conn.WriteHeader
      cases (c.SetHeader (str "Location") (if url = [] then str "/" else url)).status <;> rfl
    rw [this, Conn.lookup_SetHeader_self]
  · intro hc
    have hs : (c.SetHeader (str "Location") (if url = [] then str "/" else url)).status
        = none := hc
    unfold Conn.WriteHeader
    rw [hs]

theorem Conn.WriteHeader_body (c : Conn) (code : Nat) : (c.WriteHeader code).body = c.body := by
  unfold Conn.WriteHeader
  cases c.status <;> rfl

theorem http.NotFound_body (c : Conn) :
    (http.NotFound c).body = c.body ++ [Chunk.raw (str "404 page not found\n")] := by
  unfold http.NotFound http.Error Conn.Write
  simp only [Conn.WriteHeader_body]
  rfl

theorem rest.redirectTarget_some {mapLower : Bytes → Bytes} {r : Request} {target : Bytes}
    (ht : rest.redirectTarget mapLower r = some target) :
    r.Method = str "POST" ∧ str "/api/seal" <+: r.Path := by
  unfold rest.redirectTarget at ht
  by_contra hn
  rw [if_neg hn] at ht
  exact Option.noConfusion ht

/-- A request for one of the three seal routes reaches its handler: the router
calls the handle registered for the path of a POST. -/
theorem rest.NewSealHandler_dispatch (rev : httprouter.Revision) (mapLower : Bytes → Bytes)
    (d : json.Decoder) (h : rest.SealHandler) (c : Conn) (body : Bytes) :
    rest.Handler.ServeHTTP ((rest.NewSealHandler d h).ServeHTTP rev mapLower) c
        (example.post (str "/api/seal/opaque") body)
      = h.handleSealOpaque d c (example.post (str "/api/seal/opaque") body) ∧
    rest.Handler.ServeHTTP ((rest.NewSealHandler d h).ServeHTTP rev mapLower) c
        (example.post (str "/api/seal/dockerconfigjson") body)
      = h.handleSealDockerconfigjson d c
          (example.post (str "/api/seal/dockerconfigjson") body) ∧
    rest.Handler.ServeHTTP ((rest.NewSealHandler d h).ServeHTTP rev mapLower) c
        (example.post (str "/api/seal/tls") body)
      = h.handleSealTLS d c (example.post (str "/api/seal/tls") body) :=
  ⟨rfl, rfl, rfl⟩

/-- On the concrete handler, a GET of a seal route is answered by the router
with 405 and the methods allowed, and a POST of a request it can decode with
200 and the bytes the service wrote. -/
theorem example.ServeHTTP_runs :
    rest.Handler.ServeHTTP
        ((rest.NewSealHandler example.decoder example.handler).ServeHTTP
          { permanentRedirect := false, sortedAllow := false } example.world.mapLower)
        Conn.fresh { Method := str "GET", Path := str "/api/seal/opaque", Body := [] }
      = { Conn.fresh with
          header := [(str "Allow", str "POST, OPTIONS"),
            (str "Content-Type", str "text/plain; charset=utf-8"),
            (str "X-Content-Type-Options", str "nosniff")]
          status := some 405
          body := [Chunk.raw (str "Method Not Allowed\n")] } ∧
    (rest.Handler.ServeHTTP
        ((rest.NewSealHandler example.decoder example.handler).ServeHTTP
          { permanentRedirect := false, sortedAllow := false } example.world.mapLower)
        Conn.fresh (example.post (str "/api/seal/opaque") (str "ok"))).status = some 200 ∧
    (rest.Handler.ServeHTTP
        ((rest.NewSealHandler example.decoder example.handler).ServeHTTP
          { permanentRedirect := false, sortedAllow := false } example.world.mapLower)
        Conn.fresh (example.post (str "/api/seal/opaque") (str "ok"))).body
      = [Chunk.json [(str "sealedSecret", JSONValue.bytes (str "sealed:s1\n"))]] := by
  decide

/-- C6 (as stated) fails, in the body and in the status. A POST to "/"
matches none of the three seal routes and is answered with status 404, but the
body is the text "404 page not found" followed by a newline, not the empty
JSON object. A POST to "/api/seal/opaque/" matches none of the three seal
routes either (the route has no trailing slash), and the router answers it
with a redirection to "/api/seal/opaque" (status 307, or 308 in later
revisions of the router), not with 404; so does it answer a POST to
"/api/seal/OPAQUE" and, with Location "/", a POST to "/api/seal/../..". -/
theorem C6_counterexample :
    (example.post (str "/") []).Path ∉ rest.sealPaths ∧
    (rest.Handler.ServeHTTP
        ((rest.NewSealHandler example.decoder example.handler).ServeHTTP
          { permanentRedirect := false, sortedAllow := false } example.world.mapLower)
        Conn.fresh (example.post (str "/") [])).status = some 404 ∧
    (rest.Handler.ServeHTTP
        ((rest.NewSealHandler example.decoder example.handler).ServeHTTP
          { permanentRedirect := false, sortedAllow := false } example.world.mapLower)
        Conn.fresh (example.post (str "/") [])).body
      = [Chunk.raw (str "404 page not found\n")] ∧
    [Chunk.raw (str "404 page not found\n")] ≠ (rest.NotFound Conn.fresh).body ∧
    [Chunk.raw (str "404 page not found\n")] ≠ [Chunk.raw (str "\x7b\x7d")] ∧
    [Chunk.raw (str "404 page not found\n")] ≠ [Chunk.json []] ∧
    (example.post (str "/api/seal/opaque/") []).Path ∉ rest.sealPaths ∧
    rest.Handler.ServeHTTP
        ((rest.NewSealHandler example.decoder example.handler).ServeHTTP
          { permanentRedirect := false, sortedAllow := false } example.world.mapLower)
        Conn.fresh (example.post (str "/api/seal/opaque/") [])
      = { Conn.fresh with
          header := [(str "Location", str "/api/seal/opaque")], status := some 307 } ∧
    rest.Handler.ServeHTTP
        ((rest.NewSealHandler example.decoder example.handler).ServeHTTP
          { permanentRedirect := true, sortedAllow := true } example.world.mapLower)
        Conn.fresh (example.post (str "/api/seal/opaque/") [])
      = { Conn.fresh with
          header := [(str "Location", str "/api/seal/opaque")], status := some 308 } ∧
    (example.post (str "/api/seal/OPAQUE") []).Path ∉ rest.sealPaths ∧
    rest.Handler.ServeHTTP
        ((rest.NewSealHandler example.decoder example.handler).ServeHTTP
          { permanentRedirect := false, sortedAllow := false } example.world.mapLower)
        Conn.fresh (example.post (str "/api/seal/OPAQUE") [])
      = { Conn.fresh with
          header := [(str "Location", str "/api/seal/opaque")], status := some 307 } ∧
    (example.post (str "/api/seal/../..") []).Path ∉ rest.sealPaths ∧
    rest.Handler.ServeHTTP
        ((rest.NewSealHandler example.decoder example.handler).ServeHTTP
          { permanentRedirect := false, sortedAllow := false } example.world.mapLower)
        Conn.fresh (example.post (str "/api/seal/../..") [])
      = { Conn.fresh with header := [(str "Location", str "/")], status := some 307 } := by
  decide

/-- C6 (amended). Let a request have a path that is none of the three seal
routes, whether or not the path starts with "/api/seal". Handler.ServeHTTP,
with the router NewSealHandler builds, answers it in one of two ways.

* Unless the router redirects it, the answer is net/http's NotFound: the body
  is the text "404 page not found" followed by a newline, and on a response
  with no status yet the status is 404 and the content type
  "text/plain; charset=utf-8". This is the case for every path that does not
  start with "/api/seal" and for every method other than POST.
* The router redirects a POST under "/api/seal" whose path it can repair (see
  `rest.redirectTarget`: a seal route followed by "/", or a path that cleans
  to "/" or to a seal route up to letter case and a trailing "/"): nothing is
  written to the body, the Location is the repaired path, and on a response
  with no status yet the status is 307 or 308, depending on the revision of
  the router.

In neither case is the body the empty JSON object. -/
theorem C6_unmatched_routes (rev : httprouter.Revision) (mapLower : Bytes → Bytes)
    (d : json.Decoder) (h : rest.SealHandler) (c : Conn) (r : Request)
    (hpath : r.Path ∉ rest.sealPaths) :
    (rest.redirectTarget mapLower r = none →
      rest.Handler.ServeHTTP ((rest.NewSealHandler d h).ServeHTTP rev mapLower) c r
        = http.NotFound c ∧
      (rest.Handler.ServeHTTP ((rest.NewSealHandler d h).ServeHTTP rev mapLower) c r).body
        = c.body ++ [Chunk.raw (str "404 page not found\n")] ∧
      (c.status = none →
        (rest.Handler.ServeHTTP ((rest.NewSealHandler d h).ServeHTTP rev mapLower) c r).status
          = some 404 ∧
        List.lookup (str "Content-Type")
            (rest.Handler.ServeHTTP ((rest.NewSealHandler d h).ServeHTTP rev mapLower) c
              r).header
          = some (str "text/plain; charset=utf-8"))) ∧
    (¬ str "/api/seal" <+: r.Path → rest.redirectTarget mapLower r = none) ∧
    (r.Method ≠ str "POST" → rest.redirectTarget mapLower r = none) ∧
    (∀ target, rest.redirectTarget mapLower r = some target →
      rest.Handler.ServeHTTP ((rest.NewSealHandler d h).ServeHTTP rev mapLower) c r
        = http.Redirect c r target rev.redirectCode ∧
      (rest.Handler.ServeHTTP ((rest.NewSealHandler d h).ServeHTTP rev mapLower) c r).body
        = c.body ∧
      List.lookup (str "Location")
          (rest.Handler.ServeHTTP ((rest.NewSealHandler d h).ServeHTTP rev mapLower) c
            r).header
        = some (if target = [] then str "/" else target) ∧
      (c.status = none →
        (rest.Handler.ServeHTTP ((rest.NewSealHandler d h).ServeHTTP rev mapLower) c r).status
          = some rev.redirectCode ∧
        (rev.redirectCode = 307 ∨ rev.redirectCode = 308))) ∧
    (rest.Handler.ServeHTTP ((rest.NewSealHandler d h).ServeHTTP rev mapLower) c r).body
      ≠ c.body ++ [Chunk.raw (str "\x7b\x7d\n")] ∧
    (rest.Handler.ServeHTTP ((rest.NewSealHandler d h).ServeHTTP rev mapLower) c r).body
      ≠ c.body ++ [Chunk.json []] := by
  have hserve := rest.NewSealHandler_ServeHTTP rev mapLower d h c r hpath
  have hcode : rev.redirectCode = 307 ∨ rev.redirectCode = 308 := by
    unfold httprouter.Revision.redirectCode
    cases rev.permanentRedirect
    · exact Or.inl rfl
    · exact Or.inr rfl
  refine ⟨?_, ?_, ?_, ?_, ?_, ?_⟩
  · intro hnone
    rw [hnone] at hserve
    rw [hserve]
    exact ⟨rfl, http.NotFound_body c, fun hc =>
      ⟨(http.NotFound_spec c hc).1, (http.NotFound_spec c hc).2.2⟩⟩
  · intro hpre
    unfold rest.redirectTarget
    exact if_neg (fun hh => hpre hh.2)
  · intro hm
    unfold rest.redirectTarget
    exact if_neg (fun hh => hm hh.1)
  · intro target ht
    rw [ht] at hserve
    rw [hserve]
    obtain ⟨hb, hloc, hst⟩ :=
      http.Redirect_post c r target rev.redirectCode (rest.redirectTarget_some ht).1
    exact ⟨rfl, hb, hloc, fun hc => ⟨hst hc, hcode⟩⟩
  · rw [hserve]
    cases ht : rest.redirectTarget mapLower r with
    | none =>
      show (http.NotFound c).body ≠ _
      rw [http.NotFound_body]
      intro h0
      have := List.append_cancel_left h0
      revert this
      decide
    | some target =>
      show (http.Redirect c r target rev.redirectCode).body ≠ _
      rw [(http.Redirect_post c r target rev.redirectCode (rest.redirectTarget_some ht).1).1]
      intro h0
      have := congrArg List.length h0
      simp at this
  · rw [hserve]
    cases ht : rest.redirectTarget mapLower r with
    | none =>
      show (http.NotFound c).body ≠ _
      rw [http.NotFound_body]
      intro h0
      have := List.append_cancel_left h0
      revert this
      decide
    | some target =>
      show (http.Redirect c r target rev.redirectCode).body ≠ _
      rw [(http.Redirect_post c r target rev.redirectCode (rest.redirectTarget_some ht).1).1]
      intro h0
      have := congrArg List.length h0
      simp at this

/-- C6 (amended) at a POST to "/api/seal/nope": the path is no seal route and
cannot be repaired, so the answer is 404 with the plain-text body. -/
theorem C6_witness :
    (example.post (str "/api/seal/nope") []).Path ∉ rest.sealPaths ∧
    rest.redirectTarget example.world.mapLower (example.post (str "/api/seal/nope") []) = none ∧
    (rest.Handler.ServeHTTP
        ((rest.NewSealHandler example.decoder example.handler).ServeHTTP
          { permanentRedirect := false, sortedAllow := false } example.world.mapLower)
        Conn.fresh (example.post (str "/api/seal/nope") [])).body
      = [Chunk.raw (str "404 page not found\n")] ∧
    (rest.Handler.ServeHTTP
        ((rest.NewSealHandler example.decoder example.handler).ServeHTTP
          { permanentRedirect := false, sortedAllow := false } example.world.mapLower)
        Conn.fresh (example.post (str "/api/seal/nope") [])).status = some 404 :=
  ⟨by decide, by decide,
   ((C6_unmatched_routes { permanentRedirect := false, sortedAllow := false }
      example.world.mapLower example.decoder example.handler Conn.fresh
      (example.post (str "/api/seal/nope") []) (by decide)).1 (by decide)).2.1,
   (((C6_unmatched_routes { permanentRedirect := false, sortedAllow := false }
      example.world.mapLower example.decoder example.handler Conn.fresh
      (example.post (str "/api/seal/nope") []) (by decide)).1 (by decide)).2.2 rfl).1⟩

/-! ## Base64 -/

theorem base64.quad (a b c : Nat) (ha : a < 256) (hb : b < 256) (hc : c < 256) :
    (a <<< 16 ||| b <<< 8 ||| c) >>> 18 &&& 0x3F = a / 4 ∧
    (a <<< 16 ||| b <<< 8 ||| c) >>> 12 &&& 0x3F = a % 4 * 16 + b / 16 ∧
    (a <<< 16 ||| b <<< 8 ||| c) >>> 6 &&& 0x3F = b % 16 * 4 + c / 64 ∧
    (a <<< 16 ||| b <<< 8 ||| c) &&& 0x3F = c % 64 := by
  have h1 : a <<< 16 ||| b <<< 8 = 2 ^ 16 * a + b * 256 := by
    rw [Nat.shiftLeft_eq, Nat.shiftLeft_eq, Nat.mul_comm a (2 ^ 16)]
    exact (Nat.mul_add_lt_is_or (by omega) a).symm
  have h2 : a <<< 16 ||| b <<< 8 ||| c = 2 ^ 8 * (a * 256 + b) + c := by
    rw [h1, show 2 ^ 16 * a + b * 256 = 2 ^ 8 * (a * 256 + b) by omega]
    exact (Nat.mul_add_lt_is_or (by omega) _).symm
  have h63 : ∀ x : Nat, x &&& 0x3F = x % 64 := fun x => Nat.and_pow_two_sub_one_eq_mod x 6
  rw [h2]
  simp only [h63, Nat.shiftRight_eq_div_pow]
  refine ⟨?_, ?_, ?_, ?_⟩ <;> omega

theorem base64.EncodeToString_eq_spec (bs : Bytes) (h : ∀ b ∈ bs, b < 256) :
    base64.StdEncoding.EncodeToString bs = spec.base64 bs := by
  induction bs using spec.base64.induct with
  | case1 a b c rest ih =>
    have ha := h a (by simp)
    have hb := h b (by simp)
    have hc := h c (by simp)
    obtain ⟨q1, q2, q3, q4⟩ := base64.quad a b c ha hb hc
    simp only [base64.StdEncoding.EncodeToString, spec.base64, q1, q2, q3, q4]
    rw [ih (fun x hx => h x (by simp [hx]))]
  | case2 a b =>
    have ha := h a (by simp)
    have hb := h b (by simp)
    obtain ⟨q1, q2, q3, _⟩ := base64.quad a b 0 ha hb (by omega)
    simp only [Nat.or_zero] at q1 q2 q3
    simp only [base64.StdEncoding.EncodeToString, spec.base64, q1, q2, q3]
    simp
  | case3 a =>
    have ha := h a (by simp)
    obtain ⟨q1, q2, _, _⟩ := base64.quad a 0 0 ha (by omega) (by omega)
    simp only [Nat.or_zero, Nat.zero_shiftLeft] at q1 q2
    simp only [base64.StdEncoding.EncodeToString, spec.base64, q1, q2]
    simp
  | case4 => rfl

set_option maxRecDepth 100000 in
theorem spec.base64Index_encode :
    ∀ i, i < 64 → spec.base64Index (base64.encode i) = some i ∧ base64.encode i ≠ 61 := by
  decide

theorem spec.base64_length (bs : Bytes) : (spec.base64 bs).length = 4 * ((bs.length + 2) / 3) := by
  induction bs using spec.base64.induct with
  | case1 a b c rest ih =>
    simp only [spec.base64, List.length_cons, ih]
    omega
  | case2 a b => simp [spec.base64]
  | case3 a => simp [spec.base64]
  | case4 => rfl

theorem spec.base64Decode_encode (bs : Bytes) (h : ∀ b ∈ bs, b < 256) :
    spec.base64Decode (spec.base64 bs) = some bs := by
  induction bs using spec.base64.induct with
  | case1 a b c rest ih =>
    have ha := h a (by simp)
    have hb := h b (by simp)
    have hc := h c (by simp)
    obtain ⟨e0, _⟩ := spec.base64Index_encode (a / 4) (by omega)
    obtain ⟨e1, _⟩ := spec.base64Index_encode (a % 4 * 16 + b / 16) (by omega)
    obtain ⟨e2, n2⟩ := spec.base64Index_encode (b % 16 * 4 + c / 64) (by omega)
    obtain ⟨e3, n3⟩ := spec.base64Index_encode (c % 64) (by omega)
    simp only [spec.base64, spec.base64Decode, e0, e1, e2, e3, n2, n3, false_and, if_false,
      ih (fun x hx => h x (by simp [hx]))]
    have r1 : a / 4 * 4 + (a % 4 * 16 + b / 16) / 16 = a := by omega
    have r2 : (a % 4 * 16 + b / 16) % 16 * 16 + (b % 16 * 4 + c / 64) / 4 = b := by omega
    have r3 : (b % 16 * 4 + c / 64) % 4 * 64 + c % 64 = c := by omega
    rw [r1, r2, r3]
  | case2 a b =>
    have ha := h a (by simp)
    have hb := h b (by simp)
    obtain ⟨e0, _⟩ := spec.base64Index_encode (a / 4) (by omega)
    obtain ⟨e1, _⟩ := spec.base64Index_encode (a % 4 * 16 + b / 16) (by omega)
    obtain ⟨e2, n2⟩ := spec.base64Index_encode (b % 16 * 4) (by omega)
    simp only [spec.base64, spec.base64Decode, e0, e1, e2, n2, false_and, if_false, true_and,
      and_self, if_true]
    have r1 : a / 4 * 4 + (a % 4 * 16 + b / 16) / 16 = a := by omega
    have r2 : (a % 4 * 16 + b / 16) % 16 * 16 + b % 16 * 4 / 4 = b := by omega
    rw [r1, r2]
  | case3 a =>
    have ha := h a (by simp)
    obtain ⟨e0, _⟩ := spec.base64Index_encode (a / 4) (by omega)
    obtain ⟨e1, _⟩ := spec.base64Index_encode (a % 4 * 16) (by omega)
    simp only [spec.base64, spec.base64Decode, e0, e1, and_self, if_true]
    have r1 : a / 4 * 4 + a % 4 * 16 / 16 = a := by omega
    rw [r1]
  | case4 => rfl

/-- C4 (as stated) fails: for host "registry.example.com", username "u" and
password "p" the payload is not the byte string of the claim; it has one space
after `"auth":`. -/
theorem C4_counterexample :
    sealer.CreateDockerconfigjson (str "registry.example.com") (str "u") (str "p")
      ≠ str "\x7b\"auths\":\x7b\"registry.example.com\":\x7b\"auth\":\"dTpw\"\x7d\x7d\x7d" ∧
    sealer.CreateDockerconfigjson (str "registry.example.com") (str "u") (str "p")
      = str "\x7b\"auths\":\x7b\"registry.example.com\":\x7b\"auth\": \"dTpw\"\x7d\x7d\x7d" := by
  decide

/-- C4 (amended). For every host, username and password (byte strings),
CreateDockerconfigjson is exactly the bytes `{"auths":{"`, the host,
`":{"auth": "` (with one space after the colon), the standard padded base64
encoding of username, ":" and password, and `"}}}`, with nothing else; that
encoding decodes back to username ":" password and has four letters for every
three bytes; and the secret SealDockerconfigjson hands to the sealing delegate
holds this payload, built from the configured registry host, under the key
".dockerconfigjson". -/
theorem C4_dockerconfigjson_payload (host username password : Bytes)
    (hu : ∀ b ∈ username, b < 256) (hp : ∀ b ∈ password, b < 256) :
    sealer.CreateDockerconfigjson host username password
      = str "\x7b\"auths\":\x7b\"" ++ host ++ str "\":\x7b\"auth\": \"" ++
          spec.base64 (username ++ str ":" ++ password) ++ str "\"\x7d\x7d\x7d" ∧
    spec.base64Decode (spec.base64 (username ++ str ":" ++ password))
      = some (username ++ str ":" ++ password) ∧
    (spec.base64 (username ++ str ":" ++ password)).length
      = 4 * ((username.length + 1 + password.length + 2) / 3) ∧
    (∀ (w : World) (s : bitnami.SealService) (cluster name ns : Bytes) (st : St)
        (pk : RSAPublicKey) (sec : Secret),
      Event.NewSealedSecret pk sec ∈
        (s.SealDockerconfigjson w cluster name ns username password st).2.log.drop
          st.log.length →
      sec.Type_ = str "kubernetes.io/dockerconfigjson" ∧
      sec.Data = [(str ".dockerconfigjson",
        sealer.CreateDockerconfigjson s.registryHost username password)]) := by
  have hall : ∀ b ∈ username ++ str ":" ++ password, b < 256 := by
    intro b hb
    simp only [List.mem_append] at hb
    rcases hb with (hb | hb) | hb
    · exact hu b hb
    · have : b = 58 := by simpa [str, utf8] using hb
      omega
    · exact hp b hb
  refine ⟨?_, spec.base64Decode_encode _ hall, ?_, ?_⟩
  · unfold sealer.CreateDockerconfigjson
    simp only [base64.EncodeToString_eq_spec _ hall]
  · rw [spec.base64_length]
    have : (str ":").length = 1 := by decide
    simp only [List.length_append, this]
  · intro w s cluster name ns st pk sec hmem
    obtain ⟨evs, hl, he⟩ :=
      bitnami.SealService.SealDockerconfigjson_sealing w s cluster name ns username password st
    rw [hl, List.drop_left] at hmem
    have h := he pk sec hmem
    subst h
    exact ⟨rfl, rfl⟩

/-- C4 at the host, username and password of the specification. -/
theorem C4_witness :
    (∀ b ∈ str "u", b < 256) ∧ (∀ b ∈ str "p", b < 256) ∧
    sealer.CreateDockerconfigjson (str "registry.example.com") (str "u") (str "p")
      = str "\x7b\"auths\":\x7b\"" ++ str "registry.example.com" ++
          str "\":\x7b\"auth\": \"" ++ spec.base64 (str "u" ++ str ":" ++ str "p") ++
          str "\"\x7d\x7d\x7d" ∧
    spec.base64 (str "u" ++ str ":" ++ str "p") = str "dTpw" :=
  ⟨by decide, by decide,
   (C4_dockerconfigjson_payload (str "registry.example.com") (str "u") (str "p")
      (by decide) (by decide)).1,
   by decide⟩
